import Mathlib

/-!
Verification of the Dagger C# SDK module runtime (the reflection bridge in
`ModuleRuntime`, namespace `Dagger.Runtime`).  The definitions below are a
shallow embedding of that C# source: JSON wire values, the CLR type
descriptors the runtime inspects, the argument/result codec
(`ConvertArgumentAsync`, `NormalizeResultAsync`), metadata discovery
(`BuildModuleTypeInfos`, `BuildEnumTypeInfos`), schema registration
(`BuildTypeDef`, `HandleRegistrationAsync`) and the dispatcher
(`RunAsync`, `HandleInvocationAsync`, `LoadArgumentsAsync`).  RPC round
trips are modelled as an effect trace; asynchronous steps are modelled by
their completed results.
-/

namespace DaggerRuntime

/-- A JSON wire value (`System.Text.Json` document contents).  Numbers are
carried exactly, as rationals, which matches the observable round-trip
behaviour of the serializer on the numeric kinds the runtime supports. -/
inductive JsonValue where
  | jnull : JsonValue
  | jbool (b : Bool) : JsonValue
  | jnum (q : Rat) : JsonValue
  | jstr (s : String) : JsonValue
  | jarr (items : List JsonValue) : JsonValue
  | jobj (fields : List (String × JsonValue)) : JsonValue
deriving Repr

open JsonValue

/-- First matching member of a JSON object, as `JsonElement.TryGetProperty`. -/
def lookupProperty (fields : List (String × JsonValue)) (key : String) : Option JsonValue :=
  (fields.find? (fun kv => kv.1 = key)).map (·.2)

/-- The CLR types the runtime's type switch distinguishes.  `nullable`
models `Nullable<T>`; `enumType` carries the enum's members (name and raw
underlying constant) as reflection would expose them; `scalarType` models a
subclass of the `Scalar` base; `daggerObject` a type assignable to the
remote-object base `Dagger.Object`; `moduleObject` a user class carrying
`[Object]`. -/
inductive ClrType where
  | string : ClrType
  | int : ClrType
  | long : ClrType
  | short : ClrType
  | byte : ClrType
  | bool : ClrType
  | double : ClrType
  | float : ClrType
  | decimal : ClrType
  | guid : ClrType
  | voidType : ClrType
  | nullable (t : ClrType) : ClrType
  | enumType (name : String) (members : List (String × Int)) : ClrType
  | scalarType (name : String) : ClrType
  | daggerObject (name : String) : ClrType
  | moduleObject (name : String) : ClrType
  | array (elem : ClrType) : ClrType
  | listLike (elem : ClrType) : ClrType
  | dictionary (key value : ClrType) : ClrType
  | jsonElement : ClrType
  | jsonDocument : ClrType
  | cancellationToken : ClrType
deriving Repr, DecidableEq

/-- `Nullable.GetUnderlyingType`: the wrapped type for `Nullable<T>`,
nothing otherwise. -/
def nullableUnderlying : ClrType → Option ClrType
  | ClrType.nullable t => some t
  | _ => none

/-- Whether a CLR type is a value type (`Type.IsValueType`). -/
def isValueType : ClrType → Bool
  | ClrType.int | ClrType.long | ClrType.short | ClrType.byte => true
  | ClrType.bool | ClrType.double | ClrType.float | ClrType.decimal => true
  | ClrType.guid | ClrType.voidType => true
  | ClrType.nullable _ => true
  | ClrType.enumType _ _ => true
  | ClrType.jsonElement => true
  | ClrType.cancellationToken => true
  | _ => false

/-- `ToCamelCase`: lower-cases the first character unless the name is empty
or already starts lower-case. -/
def toCamelCase (name : String) : String :=
  match name.data with
  | [] => name
  | c :: rest => if c.isLower then name else String.mk (c.toLower :: rest)

/-- `string.IsNullOrWhiteSpace` over an optional string. -/
def isNullOrWhiteSpace : Option String → Bool
  | none => true
  | some s => s.data.all (·.isWhitespace)

/-- A property of a user object instance, as reflection sees it: the CLR
property name, the optional `[Field]` attribute (with its optional name
override), and the current value. -/
structure ModuleProp (v : Type) where
  clrName : String
  fieldAttr : Option (Option String)
  value : v
deriving Repr

/-- A native .NET value as the runtime handles it.  Remote-object handles
(`vobjectHandle`) carry the ID string their `IdAsync` accessor resolves to;
`vdeserialized` stands for the opaque result of the generic
`JsonSerializer.Deserialize` fallback; enum values carry their declared
members together with their underlying constant, which is what the boxed
CLR enum value knows about itself. -/
inductive DotnetValue where
  | vnull : DotnetValue
  | vstr (s : String) : DotnetValue
  | vbool (b : Bool) : DotnetValue
  | vint (n : Int) : DotnetValue
  | vlong (n : Int) : DotnetValue
  | vshort (n : Int) : DotnetValue
  | vbyte (n : Int) : DotnetValue
  | vdouble (q : Rat) : DotnetValue
  | vfloat (q : Rat) : DotnetValue
  | vdecimal (q : Rat) : DotnetValue
  | vguid (s : String) : DotnetValue
  | venum (tyName : String) (members : List (String × Int)) (val : Int) : DotnetValue
  | vscalar (tyName : String) (value : String) : DotnetValue
  | vobjectHandle (tyName : String) (idValue : String) : DotnetValue
  | varray (elem : ClrType) (items : List DotnetValue) : DotnetValue
  | vlist (elem : ClrType) (items : List DotnetValue) : DotnetValue
  | vmoduleObject (tyName : String) (props : List (ModuleProp DotnetValue)) : DotnetValue
  | vcancellationTokenNone : DotnetValue
  | vjson (j : JsonValue) : DotnetValue
  | vjsonDoc (j : JsonValue) : DotnetValue
  | vdeserialized (j : JsonValue) (target : ClrType) : DotnetValue
deriving Repr

open DotnetValue

/-- `Enum.ToString()` on a boxed enum value: the member name when the
underlying constant is defined, its decimal rendering otherwise. -/
def enumToString (members : List (String × Int)) (val : Int) : String :=
  match members.find? (fun m => m.2 = val) with
  | some m => m.1
  | none => toString val

/-- `Activator.CreateInstance` on a value type: the zero value. -/
def defaultValueOf : ClrType → DotnetValue
  | ClrType.int => vint 0
  | ClrType.long => vlong 0
  | ClrType.short => vshort 0
  | ClrType.byte => vbyte 0
  | ClrType.bool => vbool false
  | ClrType.double => vdouble 0
  | ClrType.float => vfloat 0
  | ClrType.decimal => vdecimal 0
  | ClrType.guid => vguid "00000000-0000-0000-0000-000000000000"
  | ClrType.enumType n ms => venum n ms 0
  | ClrType.jsonElement => vjson jnull
  | ClrType.cancellationToken => vcancellationTokenNone
  | _ => vnull

/-- Two's-complement truncation to 16 bits, as the C# cast `(short)i`. -/
def toInt16 (n : Int) : Int :=
  (n + 2 ^ 15) % 2 ^ 16 - 2 ^ 15

/-- Truncation to 8 bits, as the C# cast `(byte)i`. -/
def toUInt8cast (n : Int) : Int :=
  n % 2 ^ 8

/-- `JsonElement.GetString`: the string, null for a null element, a fault
otherwise. -/
def getStringJson : JsonValue → Except String (Option String)
  | jstr s => .ok (some s)
  | jnull => .ok none
  | _ => .error "InvalidOperationException: element is not a string."

/-- `JsonElement.GetInt32`: the numeric value when it is an integer in
32-bit range. -/
def getInt32 : JsonValue → Except String Int
  | jnum q =>
      if q.den = 1 ∧ -(2 ^ 31) ≤ q.num ∧ q.num < 2 ^ 31 then .ok q.num
      else .error "FormatException: value is not an Int32."
  | _ => .error "InvalidOperationException: element is not a number."

/-- `JsonElement.GetInt64`. -/
def getInt64 : JsonValue → Except String Int
  | jnum q =>
      if q.den = 1 ∧ -(2 ^ 63) ≤ q.num ∧ q.num < 2 ^ 63 then .ok q.num
      else .error "FormatException: value is not an Int64."
  | _ => .error "InvalidOperationException: element is not a number."

/-- `JsonElement.GetBoolean`. -/
def getBooleanJson : JsonValue → Except String Bool
  | jbool b => .ok b
  | _ => .error "InvalidOperationException: element is not a boolean."

/-- `JsonElement.GetDouble` (and `GetSingle`, `GetDecimal`): the numeric
value, carried exactly. -/
def getNumberJson : JsonValue → Except String Rat
  | jnum q => .ok q
  | _ => .error "InvalidOperationException: element is not a number."

/-- `JsonElement.GetGuid`. -/
def getGuidJson : JsonValue → Except String String
  | jstr s => .ok s
  | _ => .error "InvalidOperationException: element is not a string."

/-- `Enum.Parse(targetType, value, ignoreCase: true)`: a case-insensitive
match of the wire string against the declared member names. -/
def enumParse (tyName : String) (members : List (String × Int)) (s : String) :
    Except String Int :=
  match members.find? (fun m => m.1.toLower = s.toLower) with
  | some m => .ok m.2
  | none => .error ("Requested value '" ++ s ++ "' was not found in enum '" ++ tyName ++ "'.")

/-- Rendering of a JSON value back to text, for `JsonElement.GetRawText`. -/
def renderJson : JsonValue → String
  | jnull => "null"
  | jbool true => "true"
  | jbool false => "false"
  | jnum q => if q.den = 1 then toString q.num else toString q
  | jstr s => "\x22" ++ s ++ "\x22"
  | jarr items => "[" ++ String.intercalate "," (items.attach.map (fun it => renderJson it.1)) ++ "]"
  | jobj fields =>
      "\x7b" ++
        String.intercalate ","
          (fields.attach.map (fun kv => "\x22" ++ kv.1.1 ++ "\x22:" ++ renderJson kv.1.2)) ++
      "\x7d"
decreasing_by
  · have := List.sizeOf_lt_of_mem it.2
    simp_wf
    omega
  · obtain ⟨⟨k, v⟩, hm⟩ := kv
    have := List.sizeOf_lt_of_mem hm
    simp_wf
    simp only [Prod.mk.sizeOf_spec] at this
    omega

/-- The reflection surface of the generated `Query` client that the codec
consults when decoding a remote object: for a type name, the
`Load<Name>FromId` method if it exists (as a function from the supplied ID
string to the loaded handle), and whether the `<Name>Id` wrapper type
exists in the assembly. -/
structure RuntimeEnv where
  loaders : String → Option (String → DotnetValue)
  idTypeExists : String → Bool

/-- Whether a JSON element has `ValueKind == JsonValueKind.Null`. -/
def isNullJson : JsonValue → Bool
  | jnull => true
  | _ => false

/-- The `id` extraction switch at the head of the remote-object decode
branch: a bare string is the ID; an object's `id` member is read with
`GetString` (null member gives null, a non-string member faults); anything
else gives null. -/
def extractObjectId : JsonValue → Except String (Option String)
  | jstr s => .ok (some s)
  | jobj fields =>
      match lookupProperty fields "id" with
      | some (jstr s) => .ok (some s)
      | some jnull => .ok none
      | some _ => .error "InvalidOperationException: element is not a string."
      | none => .ok none
  | _ => .ok none

mutual

/-- `ConvertArgumentAsync`: decode a JSON wire element into a native value
of the requested CLR type.  The branches appear in the order of the C#
if-chain; the nullable wrapper is unwrapped first, a null element then
yields native null (or the zero value of a non-nullable value type). -/
def convertArgument (env : RuntimeEnv) (element : JsonValue) (targetType0 : ClrType) :
    Except String DotnetValue :=
  if (nullableUnderlying targetType0).isSome && isNullJson element then .ok vnull
  else if isNullJson element then
    .ok (if isValueType targetType0 then defaultValueOf targetType0 else vnull)
  else
    match (nullableUnderlying targetType0).getD targetType0 with
    | ClrType.string => do
        let s? ← getStringJson element
        .ok (match s? with | some s => vstr s | none => vnull)
    | ClrType.int => do
        let n ← getInt32 element
        .ok (vint n)
    | ClrType.long => do
        let n ← getInt64 element
        .ok (vlong n)
    | ClrType.short => do
        let n ← getInt32 element
        .ok (vshort (toInt16 n))
    | ClrType.byte => do
        let n ← getInt32 element
        .ok (vbyte (toUInt8cast n))
    | ClrType.bool => do
        let b ← getBooleanJson element
        .ok (vbool b)
    | ClrType.double => do
        let q ← getNumberJson element
        .ok (vdouble q)
    | ClrType.float => do
        let q ← getNumberJson element
        .ok (vfloat q)
    | ClrType.decimal => do
        let q ← getNumberJson element
        .ok (vdecimal q)
    | ClrType.guid => do
        let s ← getGuidJson element
        .ok (vguid s)
    | ClrType.enumType n ms => do
        let s? ← getStringJson element
        match s? with
        | none => .error ("Cannot convert null to enum '" ++ n ++ "'.")
        | some s => do
            let v ← enumParse n ms s
            .ok (venum n ms v)
    | ClrType.scalarType n =>
        .ok (vscalar n (match element with | jstr s => s | _ => renderJson element))
    | ClrType.daggerObject n => do
        let id? ← extractObjectId element
        match id? with
        | none => .ok vnull
        | some id =>
          if id.data.all (·.isWhitespace) then .ok vnull
          else
            match env.loaders n with
            | none => .error ("Cannot load '" ++ n ++ "' from id.")
            | some loadFn =>
              if env.idTypeExists n then .ok (loadFn id)
              else .error ("Missing id type for '" ++ n ++ "'.")
    | ClrType.array elem =>
        match element with
        | jarr items => do
            let vs ← convertList env items elem
            .ok (varray elem vs)
        | _ => .error "InvalidOperationException: element is not an array."
    | ClrType.listLike elem =>
        match element with
        | jarr items => do
            let vs ← convertList env items elem
            .ok (vlist elem vs)
        | _ => .error "InvalidOperationException: element is not an array."
    | ClrType.dictionary k v => .ok (vdeserialized element (ClrType.dictionary k v))
    | ClrType.jsonElement => .ok (vjson element)
    | ClrType.jsonDocument => .ok (vjsonDoc element)
    | t => .ok (vdeserialized element t)
termination_by sizeOf element

/-- Elementwise decoding of a JSON array, as the foreach over
`EnumerateArray` in both the array and the list branches. -/
def convertList (env : RuntimeEnv) (items : List JsonValue) (elemType : ClrType) :
    Except String (List DotnetValue) :=
  match items with
  | [] => .ok []
  | x :: rest => do
      let v ← convertArgument env x elemType
      let vs ← convertList env rest elemType
      .ok (v :: vs)
termination_by sizeOf items

end

/-- Insertion into a string-keyed dictionary (`dict[key] = value`):
overwrites an existing key in place, appends otherwise. -/
def assocSet {α : Type} : List (String × α) → String → α → List (String × α)
  | [], k, v => [(k, v)]
  | (k', v') :: rest, k, v =>
      if k' = k then (k, v) :: rest else (k', v') :: assocSet rest k v

/-- The serializer (`JsonSerializer.Serialize` with the runtime's options:
camel-case property naming, nulls omitted for object properties, enums as
camel-cased strings) applied to an arbitrary native value.  Remote-object
handles and cancellation tokens carry no data-bearing properties in the
model; the claimed code paths never serialize them generically. -/
def genericSerialize : DotnetValue → JsonValue
  | vnull => jnull
  | vstr s => jstr s
  | vbool b => jbool b
  | vint n => jnum n
  | vlong n => jnum n
  | vshort n => jnum n
  | vbyte n => jnum n
  | vdouble q => jnum q
  | vfloat q => jnum q
  | vdecimal q => jnum q
  | vguid s => jstr s
  | venum _ ms v => jstr (toCamelCase (enumToString ms v))
  | vscalar _ v => jobj [("value", jstr v)]
  | vobjectHandle _ _ => jobj []
  | varray _ items => jarr (items.attach.map (fun it => genericSerialize it.1))
  | vlist _ items => jarr (items.attach.map (fun it => genericSerialize it.1))
  | vmoduleObject _ props =>
      jobj ((props.attach.filterMap (fun p =>
        match p.1.value with
        | vnull => none
        | _ => some (toCamelCase p.1.clrName, genericSerialize p.1.value))))
  | vcancellationTokenNone => jobj []
  | vjson j => j
  | vjsonDoc j => j
  | vdeserialized j _ => j
decreasing_by
  · have := List.sizeOf_lt_of_mem it.2
    simp_wf
    omega
  · have := List.sizeOf_lt_of_mem it.2
    simp_wf
    omega
  · obtain ⟨p', hm⟩ := p
    have h1 := List.sizeOf_lt_of_mem hm
    obtain ⟨a, b, c⟩ := p'
    simp_wf
    simp only [ModuleProp.mk.sizeOf_spec] at h1 ⊢
    omega

/-- The shape of a value produced by `NormalizeResultAsync`: native
primitives are passed through unchanged, enums and opaque scalars and
remote-object IDs become strings, sequences become lists, module objects
become string-keyed dictionaries of their exposed fields, and the fallback
is a generic serialize/deserialize round trip whose observable content is
the serialized JSON. -/
inductive NormResult where
  | nnull : NormResult
  | nprim (v : DotnetValue) : NormResult
  | nstr (s : String) : NormResult
  | njson (j : JsonValue) : NormResult
  | nlist (items : List NormResult) : NormResult
  | ndict (entries : List (String × NormResult)) : NormResult
  | nround (j : JsonValue) : NormResult
deriving Repr

open NormResult

mutual

/-- `NormalizeResultAsync`: normalizes a native return value for
serialization.  The cases appear in the order of the C# switch:
primitives unchanged, `Enum.ToString()`, `Scalar.Value`, JSON passthrough
re-read, sequences elementwise, then remote objects by their own
`IdAsync`, then `[Object]`-marked values as dictionaries of their
`[Field]`-marked properties, then the generic round-trip fallback. -/
def normalizeResult : DotnetValue → NormResult
  | vnull => nnull
  | vstr s => nprim (vstr s)
  | vbool b => nprim (vbool b)
  | vint n => nprim (vint n)
  | vlong n => nprim (vlong n)
  | vshort n => nprim (vshort n)
  | vbyte n => nprim (vbyte n)
  | vdouble q => nprim (vdouble q)
  | vfloat q => nprim (vfloat q)
  | vdecimal q => nprim (vdecimal q)
  | venum _ ms v => nstr (enumToString ms v)
  | vscalar _ v => nstr v
  | vjson j => njson j
  | vjsonDoc j => njson j
  | varray _ items => nlist (normalizeList items)
  | vlist _ items => nlist (normalizeList items)
  | vobjectHandle _ id => nstr id
  | vmoduleObject _ props => ndict (normalizeProps props [])
  | vguid s => nround (genericSerialize (vguid s))
  | vcancellationTokenNone => nround (genericSerialize vcancellationTokenNone)
  | vdeserialized j t => nround (genericSerialize (vdeserialized j t))
termination_by v => sizeOf v

/-- Elementwise normalization of a sequence (the `IEnumerable` case). -/
def normalizeList : List DotnetValue → List NormResult
  | [] => []
  | x :: rest => normalizeResult x :: normalizeList rest
termination_by items => sizeOf items

/-- The dictionary built from a module object's properties: each
`[Field]`-marked property contributes, under the camel-cased attribute or
property name, its recursively normalized value. -/
def normalizeProps (props : List (ModuleProp DotnetValue))
    (acc : List (String × NormResult)) : List (String × NormResult) :=
  match props with
  | [] => acc
  | p :: rest =>
    match p.fieldAttr with
    | none => normalizeProps rest acc
    | some nameOverride =>
        normalizeProps rest
          (assocSet acc (toCamelCase (nameOverride.getD p.clrName)) (normalizeResult p.value))
termination_by sizeOf props
decreasing_by
  all_goals obtain ⟨a, b, c⟩ := p
  all_goals simp_wf
  all_goals omega

end

/-- Serialization of a primitive native value (the pass-through cases of
the normalizer). -/
def serializePrim : DotnetValue → JsonValue
  | vstr s => jstr s
  | vbool b => jbool b
  | vint n => jnum n
  | vlong n => jnum n
  | vshort n => jnum n
  | vbyte n => jnum n
  | vdouble q => jnum q
  | vfloat q => jnum q
  | vdecimal q => jnum q
  | _ => jnull

/-- `JsonSerializer.Serialize` applied to a normalized result — the JSON
wire value the dispatcher submits through `ReturnValueAsync`. -/
def serializeNorm : NormResult → JsonValue
  | nnull => jnull
  | nprim v => serializePrim v
  | nstr s => jstr s
  | njson j => j
  | nlist items => jarr (items.attach.map (fun it => serializeNorm it.1))
  | ndict entries =>
      jobj (entries.attach.map (fun kv => (kv.1.1, serializeNorm kv.1.2)))
  | nround j => j
decreasing_by
  · have := List.sizeOf_lt_of_mem it.2
    simp_wf
    omega
  · obtain ⟨⟨k, v⟩, hm⟩ := kv
    have := List.sizeOf_lt_of_mem hm
    simp_wf
    simp only [Prod.mk.sizeOf_spec] at this
    omega

/-- A constructed user-object instance: its CLR type name and the values
of its public properties, keyed by CLR property name. -/
structure Instance where
  typeName : String
  props : List (String × DotnetValue)
deriving Repr

/-- `PropertyInfo.GetValue`. -/
def Instance.getProp (inst : Instance) (key : String) : Option DotnetValue :=
  (inst.props.find? (fun kv => kv.1 = key)).map (·.2)

/-- `PropertyInfo.SetValue`. -/
def Instance.setProp (inst : Instance) (key : String) (v : DotnetValue) : Instance :=
  { inst with props := assocSet inst.props key v }

/-- `[Object]` attribute data. -/
structure ObjectAttr where
  name : Option String
  description : Option String
  deprecated : Option String

/-- `[Function]` attribute data. -/
structure FunctionAttr where
  name : Option String
  description : Option String
  deprecated : Option String
  cache : Option String

/-- `[Field]` attribute data. -/
structure FieldAttr where
  name : Option String
  description : Option String
  deprecated : Option String

/-- A declared parameter as reflection exposes it (`ParameterInfo`),
together with its `[DefaultPath]` and `[Ignore]` attributes. -/
structure ParamDecl where
  name : Option String
  parameterType : ClrType
  hasDefaultValue : Bool
  defaultValue : DotnetValue
  isOptional : Bool
  defaultPathAttr : Option String
  ignoreAttr : Option (List String)

/-- A declared public instance constructor (`ConstructorInfo`); `invoke`
models `ConstructorInfo.Invoke`, an error being the message surfaced by
the thrown invocation fault. -/
structure CtorDecl where
  params : List ParamDecl
  invoke : List DotnetValue → Except String Instance

/-- The declared shape of a method's return type: either a plain type or
one of the two asynchronous wrappers (each with a generic and a
non-generic form). -/
inductive ReturnShape where
  | plain (t : ClrType) : ReturnShape
  | task : ReturnShape
  | valueTask : ReturnShape
  | taskOf (t : ClrType) : ReturnShape
  | valueTaskOf (t : ClrType) : ReturnShape
deriving Repr, DecidableEq

/-- `Method.ReturnType.IsGenericType` for the declared shapes. -/
def isGenericReturn : ReturnShape → Bool
  | ReturnShape.taskOf _ => true
  | ReturnShape.valueTaskOf _ => true
  | _ => false

/-- `UnwrapReturnType`: the effective return type together with the
`returnsTask`, `returnsValueTask` and `returnsVoid` flags. -/
def unwrapReturnType : ReturnShape → ClrType × Bool × Bool × Bool
  | ReturnShape.plain ClrType.voidType => (ClrType.voidType, false, false, true)
  | ReturnShape.task => (ClrType.voidType, true, false, true)
  | ReturnShape.valueTask => (ClrType.voidType, false, true, true)
  | ReturnShape.taskOf t => (t, true, false, t = ClrType.voidType)
  | ReturnShape.valueTaskOf t => (t, false, true, t = ClrType.voidType)
  | ReturnShape.plain t => (t, false, false, false)

/-- A declared public instance method (`MethodInfo`); `invoke` models the
native call (unwrapped one level, so an error carries the original
cause's message) with, for the asynchronous shapes, the awaited result. -/
structure MethodDecl where
  name : String
  isSpecialName : Bool
  functionAttr : Option FunctionAttr
  xmlDescription : Option String
  returnShape : ReturnShape
  parameters : List ParamDecl
  invoke : Instance → List DotnetValue → Except String DotnetValue

/-- A declared public instance property (`PropertyInfo`). -/
structure PropertyDecl where
  name : String
  propertyType : ClrType
  fieldAttr : Option FieldAttr

/-- A user type in the entry assembly; `activatorCreate` models
`Activator.CreateInstance` (an error for a construction fault, `none` for
a null result). -/
structure TypeDecl where
  name : String
  objectAttr : Option ObjectAttr
  xmlDescription : Option String
  constructors : List CtorDecl
  methods : List MethodDecl
  properties : List PropertyDecl
  activatorCreate : Except String (Option Instance)

/-- `[EnumValue]` attribute data. -/
structure EnumValueAttr where
  description : Option String
  deprecated : Option String

/-- `[Enum]` attribute data. -/
structure EnumAttr where
  name : Option String
  description : Option String

/-- A public static field of an enum type, with its raw underlying
constant (`FieldInfo.GetRawConstantValue`). -/
structure EnumFieldDecl where
  name : String
  rawConstantValue : Option Int
  valueAttr : Option EnumValueAttr

/-- An enum type in the entry assembly. -/
structure EnumDecl where
  name : String
  enumAttr : Option EnumAttr
  fields : List EnumFieldDecl

/-- The entry assembly's loaded types, as `Assembly.GetTypes` enumerates
them (enum types listed separately). -/
structure Assembly where
  types : List TypeDecl
  enums : List EnumDecl

/-- `GetTypeDescription`: the `[Object]` attribute's description when it
is non-whitespace, the XML documentation summary otherwise. -/
def getTypeDescription (t : TypeDecl) : Option String :=
  match t.objectAttr.bind (·.description) with
  | some d => if isNullOrWhiteSpace (some d) then t.xmlDescription else some d
  | none => t.xmlDescription

/-- `GetMethodDescription`: the `[Function]` attribute's description when
it is non-whitespace, the XML documentation summary otherwise. -/
def getMethodDescription (m : MethodDecl) : Option String :=
  match m.functionAttr.bind (·.description) with
  | some d => if isNullOrWhiteSpace (some d) then m.xmlDescription else some d
  | none => m.xmlDescription

/-- The discovered metadata of one function parameter (`ParameterMetadata`
in the source). -/
structure ParameterMetadata where
  name : String
  description : Option String
  parameter : ParamDecl
  parameterType : ClrType
  isOptional : Bool
  isCancellationToken : Bool
  defaultPath : Option String
  ignore : Option (List String)

/-- The `ParameterMetadata` built for one parameter during function
discovery: optionality is `HasDefaultValue || IsOptional || nullable`;
`count` is the number of parameters already added, used for the fallback
name. -/
def buildParameterMetadata (count : Nat) (p : ParamDecl) : ParameterMetadata :=
  { name := toCamelCase (p.name.getD ("arg" ++ toString count))
    description := none
    parameter := p
    parameterType := p.parameterType
    isOptional :=
      p.hasDefaultValue || p.isOptional || (nullableUnderlying p.parameterType).isSome
    isCancellationToken := p.parameterType = ClrType.cancellationToken
    defaultPath := p.defaultPathAttr
    ignore := p.ignoreAttr }

/-- The discovered metadata of one function (`FunctionInfo` in the
source). -/
structure FunctionInfo where
  name : String
  description : Option String
  deprecated : Option String
  cachePolicy : Option String
  returnShape : ReturnShape
  invoke : Instance → List DotnetValue → Except String DotnetValue
  returnType : ClrType
  returnsTask : Bool
  returnsValueTask : Bool
  returnsVoid : Bool
  parameters : List ParameterMetadata

/-- The discovered metadata of one exposed field (`FieldInfo` in the
source). -/
structure FieldInfo where
  name : String
  description : Option String
  deprecated : Option String
  propertyName : String
  propertyType : ClrType

/-- The discovered metadata of one module object type (`ModuleTypeInfo`
in the source). -/
structure ModuleTypeInfo where
  name : String
  description : Option String
  deprecated : Option String
  clrTypeName : String
  activatorCreate : Except String (Option Instance)
  constructor : Option CtorDecl
  functions : List FunctionInfo
  fields : List FieldInfo

/-- The parameter loop of function discovery, threading the running count
used for unnamed parameters. -/
def buildParameterList (count : Nat) : List ParamDecl → List ParameterMetadata
  | [] => []
  | p :: rest => buildParameterMetadata count p :: buildParameterList (count + 1) rest

/-- The `FunctionInfo` built for one `[Function]`-marked method. -/
def buildFunctionInfo (m : MethodDecl) (fa : FunctionAttr) : FunctionInfo :=
  let u := unwrapReturnType m.returnShape
  { name := toCamelCase (fa.name.getD m.name)
    description := (match fa.description with
      | some d => some d
      | none => getMethodDescription m)
    deprecated := fa.deprecated
    cachePolicy := fa.cache
    returnShape := m.returnShape
    invoke := m.invoke
    returnType := u.1
    returnsTask := u.2.1
    returnsValueTask := u.2.2.1
    returnsVoid := u.2.2.2
    parameters := buildParameterList 0 m.parameters }

/-- The method loop of discovery: special-named methods are skipped, as
are methods without a `[Function]` attribute. -/
def discoverFunctions : List MethodDecl → List FunctionInfo
  | [] => []
  | m :: rest =>
    if m.isSpecialName then discoverFunctions rest
    else
      match m.functionAttr with
      | none => discoverFunctions rest
      | some fa => buildFunctionInfo m fa :: discoverFunctions rest

/-- The property loop of discovery: only `[Field]`-marked properties are
exposed, under the camel-cased attribute or property name. -/
def discoverFields : List PropertyDecl → List FieldInfo
  | [] => []
  | p :: rest =>
    match p.fieldAttr with
    | none => discoverFields rest
    | some fa =>
        { name := toCamelCase (fa.name.getD p.name)
          description := fa.description
          deprecated := fa.deprecated
          propertyName := p.name
          propertyType := p.propertyType } :: discoverFields rest

/-- `GetModuleConstructor`: no constructor is registered when the only
public constructor is parameterless; otherwise the first constructor with
parameters is chosen. -/
def getModuleConstructor (t : TypeDecl) : Option CtorDecl :=
  let defaultCtor := t.constructors.find? (fun c => c.params.length = 0)
  if defaultCtor.isSome ∧ t.constructors.length = 1 then none
  else t.constructors.find? (fun c => c.params.length > 0)

/-- The `ModuleTypeInfo` built for one `[Object]`-marked type; a type with
no discovered functions and no discovered fields is dropped. -/
def buildModuleTypeInfo? (t : TypeDecl) : Option ModuleTypeInfo :=
  match t.objectAttr with
  | none => none
  | some attr =>
    let functions := discoverFunctions t.methods
    let fields := discoverFields t.properties
    if functions.length > 0 ∨ fields.length > 0 then
      some
        { name := attr.name.getD t.name
          description := (match attr.description with
            | some d => some d
            | none => getTypeDescription t)
          deprecated := attr.deprecated
          clrTypeName := t.name
          activatorCreate := t.activatorCreate
          constructor := getModuleConstructor t
          functions := functions
          fields := fields }
    else none

/-- `BuildModuleTypeInfos`: discovery of every `[Object]`-marked type in
the entry assembly (`DiscoverModuleTypes` filters on the attribute; the
per-type loop re-checks it). -/
def buildModuleTypeInfos (asm : Assembly) : List ModuleTypeInfo :=
  (asm.types.filter (fun t => t.objectAttr.isSome)).filterMap buildModuleTypeInfo?

/-- A registered enum member (`EnumValueInfo`). -/
structure EnumValueInfo where
  name : String
  value : String
  description : Option String
  deprecated : Option String
deriving Repr, DecidableEq

/-- A registered enum type (`EnumTypeInfo`). -/
structure EnumTypeInfo where
  name : String
  description : Option String
  enumTypeName : String
  values : List EnumValueInfo
deriving Repr, DecidableEq

/-- The `EnumValueInfo` built for one enum member: the registered name is
the field's declared name, and the registered wire value is
`GetRawConstantValue()?.ToString() ?? field.Name`. -/
def buildEnumValueInfo (f : EnumFieldDecl) : EnumValueInfo :=
  { name := f.name
    value := (f.rawConstantValue.map (fun n => toString n)).getD f.name
    description := f.valueAttr.bind (·.description)
    deprecated := f.valueAttr.bind (·.deprecated) }

/-- The `EnumTypeInfo` built for one `[Enum]`-marked enum type. -/
def buildEnumTypeInfo (d : EnumDecl) (attr : EnumAttr) : EnumTypeInfo :=
  { name := attr.name.getD d.name
    description := attr.description
    enumTypeName := d.name
    values := d.fields.map buildEnumValueInfo }

/-- `BuildEnumTypeInfos`: discovery of every `[Enum]`-marked enum type in
the entry assembly. -/
def buildEnumTypeInfos (asm : Assembly) : List EnumTypeInfo :=
  asm.enums.filterMap (fun d => (d.enumAttr).map (buildEnumTypeInfo d))

/-- The engine's scalar kinds used by the runtime. -/
inductive TypeDefKind where
  | STRING_KIND : TypeDefKind
  | INTEGER_KIND : TypeDefKind
  | FLOAT_KIND : TypeDefKind
  | BOOLEAN_KIND : TypeDefKind
  | SCALAR_KIND : TypeDefKind
  | VOID_KIND : TypeDefKind
deriving Repr, DecidableEq

/-- An engine `TypeDef` as the builder assembles it: a kind, a list of an
element definition, an enum reference or an object reference, each
carrying the `WithOptional` decoration. -/
inductive TypeDef where
  | kind (k : TypeDefKind) (optional : Bool) : TypeDef
  | listOf (elem : TypeDef) (optional : Bool) : TypeDef
  | enumRef (name : String) (description : Option String) (optional : Bool) : TypeDef
  | objectRef (name : String) (description : Option String) (optional : Bool) : TypeDef
deriving Repr, DecidableEq

/-- `TypeDef.WithOptional`. -/
def TypeDef.withOptional : TypeDef → Bool → TypeDef
  | TypeDef.kind k _, b => TypeDef.kind k b
  | TypeDef.listOf e _, b => TypeDef.listOf e b
  | TypeDef.enumRef n d _, b => TypeDef.enumRef n d b
  | TypeDef.objectRef n d _, b => TypeDef.objectRef n d b

/-- The `WithOptional` decoration of a `TypeDef`. -/
def TypeDef.optional : TypeDef → Bool
  | TypeDef.kind _ b => b
  | TypeDef.listOf _ b => b
  | TypeDef.enumRef _ _ b => b
  | TypeDef.objectRef _ _ b => b

/-- A display name for a CLR type, used in the `UnsupportedType` error. -/
def clrTypeDisplayName : ClrType → String
  | ClrType.string => "System.String"
  | ClrType.int => "System.Int32"
  | ClrType.long => "System.Int64"
  | ClrType.short => "System.Int16"
  | ClrType.byte => "System.Byte"
  | ClrType.bool => "System.Boolean"
  | ClrType.double => "System.Double"
  | ClrType.float => "System.Single"
  | ClrType.decimal => "System.Decimal"
  | ClrType.guid => "System.Guid"
  | ClrType.voidType => "System.Void"
  | ClrType.nullable _ => "System.Nullable"
  | ClrType.enumType n _ => n
  | ClrType.scalarType n => n
  | ClrType.daggerObject n => n
  | ClrType.moduleObject n => n
  | ClrType.array _ => "System.Array"
  | ClrType.listLike _ => "System.Collections.Generic.List"
  | ClrType.dictionary _ _ => "System.Collections.Generic.Dictionary"
  | ClrType.jsonElement => "System.Text.Json.JsonElement"
  | ClrType.jsonDocument => "System.Text.Json.JsonDocument"
  | ClrType.cancellationToken => "System.Threading.CancellationToken"

/-- `BuildTypeDef`: maps a CLR type to an engine `TypeDef` together with
its nullability.  A nullable wrapper is unwrapped first, recording
nullability; list shapes map their element recursively, discarding the
element's nullability; `void` returns `true` in the nullability position
unconditionally; unsupported types are a hard mapping failure. -/
def buildTypeDef : ClrType → Except String (TypeDef × Bool)
  | ClrType.nullable t =>
    (match t with
     | ClrType.nullable t' =>
         .error ("Unsupported type '" ++ clrTypeDisplayName (ClrType.nullable t') ++ "'.")
     | ClrType.voidType => .ok (TypeDef.kind TypeDefKind.VOID_KIND false, true)
     | _ => do
         let r ← buildTypeDef t
         .ok (r.1, true))
  | ClrType.array elem => do
      let r ← buildTypeDef elem
      .ok (TypeDef.listOf r.1 false, false)
  | ClrType.listLike elem => do
      let r ← buildTypeDef elem
      .ok (TypeDef.listOf r.1 false, false)
  | ClrType.string => .ok (TypeDef.kind TypeDefKind.STRING_KIND false, false)
  | ClrType.int => .ok (TypeDef.kind TypeDefKind.INTEGER_KIND false, false)
  | ClrType.long => .ok (TypeDef.kind TypeDefKind.INTEGER_KIND false, false)
  | ClrType.short => .ok (TypeDef.kind TypeDefKind.INTEGER_KIND false, false)
  | ClrType.byte => .ok (TypeDef.kind TypeDefKind.INTEGER_KIND false, false)
  | ClrType.float => .ok (TypeDef.kind TypeDefKind.FLOAT_KIND false, false)
  | ClrType.double => .ok (TypeDef.kind TypeDefKind.FLOAT_KIND false, false)
  | ClrType.decimal => .ok (TypeDef.kind TypeDefKind.FLOAT_KIND false, false)
  | ClrType.bool => .ok (TypeDef.kind TypeDefKind.BOOLEAN_KIND false, false)
  | ClrType.scalarType _ => .ok (TypeDef.kind TypeDefKind.SCALAR_KIND false, false)
  | ClrType.enumType n _ => .ok (TypeDef.enumRef n none false, false)
  | ClrType.daggerObject n => .ok (TypeDef.objectRef n none false, false)
  | ClrType.moduleObject n => .ok (TypeDef.objectRef n none false, false)
  | ClrType.voidType => .ok (TypeDef.kind TypeDefKind.VOID_KIND false, true)
  | ClrType.jsonElement => .ok (TypeDef.kind TypeDefKind.SCALAR_KIND false, false)
  | ClrType.jsonDocument => .ok (TypeDef.kind TypeDefKind.SCALAR_KIND false, false)
  | t => .error ("Unsupported type '" ++ clrTypeDisplayName t ++ "'.")

/-- `NormalizeDefaultValue`: primitive defaults pass through, enum
defaults become their `ToString`, anything else becomes null (and is then
not registered). -/
def normalizeDefaultValue : DotnetValue → Option DotnetValue
  | vstr s => some (vstr s)
  | vbool b => some (vbool b)
  | vint n => some (vint n)
  | vlong n => some (vlong n)
  | vshort n => some (vshort n)
  | vbyte n => some (vbyte n)
  | vdouble q => some (vdouble q)
  | vfloat q => some (vfloat q)
  | vdecimal q => some (vdecimal q)
  | venum _ ms v => some (vstr (enumToString ms v))
  | _ => none

/-- A cache directive translated to the engine's cache-policy shape. -/
inductive CachePolicySetting where
  | never : CachePolicySetting
  | perSession : CachePolicySetting
  | ttl (duration : String) : CachePolicySetting
deriving Repr, DecidableEq

/-- A registered function argument (one `WithArg` call). -/
structure ArgDef where
  name : String
  typeDef : TypeDef
  description : Option String
  defaultJson : Option JsonValue
  defaultPath : Option String
  ignorePatterns : Option (List String)
deriving Repr

/-- A registered function (one `dag.Function(...)` chain). -/
structure FunctionDef where
  name : String
  returnType : TypeDef
  description : Option String
  cachePolicy : Option CachePolicySetting
  deprecated : Option String
  args : List ArgDef
deriving Repr

/-- The argument loop of function registration: cancellation-token
parameters are skipped; each remaining parameter is registered with its
mapped type (optional when nullable or optional), its serialized default,
and its path-default and ignore hints. -/
def registerFunctionArgs : List ParameterMetadata → Except String (List ArgDef)
  | [] => .ok []
  | parameter :: rest =>
    if parameter.isCancellationToken then registerFunctionArgs rest
    else do
      let r ← buildTypeDef parameter.parameterType
      let argumentTypeDef :=
        if r.2 || parameter.isOptional then r.1.withOptional true else r.1
      let defaultJson :=
        if parameter.parameter.hasDefaultValue then
          (normalizeDefaultValue parameter.parameter.defaultValue).map genericSerialize
        else none
      let rest' ← registerFunctionArgs rest
      .ok ({ name := parameter.name
             typeDef := argumentTypeDef
             description := parameter.description
             defaultJson := defaultJson
             defaultPath := parameter.defaultPath
             ignorePatterns := parameter.ignore } :: rest')

/-- The registration of one discovered function: the mapped return type is
forced optional when the function returns void or the return type is
nullable; the cache directive is translated; arguments are registered in
order. -/
def registerFunction (function : FunctionInfo) : Except String FunctionDef := do
  let r ← buildTypeDef function.returnType
  let returnTypeDef :=
    if function.returnsVoid || r.2 then r.1.withOptional true else r.1
  let description :=
    if isNullOrWhiteSpace function.description then none else function.description
  let cachePolicy :=
    match function.cachePolicy with
    | none => none
    | some c =>
      if isNullOrWhiteSpace (some c) then none
      else
        match c.toLower with
        | "never" => some CachePolicySetting.never
        | "session" => some CachePolicySetting.perSession
        | _ => some (CachePolicySetting.ttl c)
  let deprecated :=
    if isNullOrWhiteSpace function.deprecated then none else function.deprecated
  let args ← registerFunctionArgs function.parameters
  .ok { name := function.name
        returnType := returnTypeDef
        description := description
        cachePolicy := cachePolicy
        deprecated := deprecated
        args := args }

/-- The argument loop of constructor registration (optional when nullable,
defaulted or optional; names fall back on the parameter position). -/
def registerCtorArgs (position : Nat) : List ParamDecl → Except String (List ArgDef)
  | [] => .ok []
  | param :: rest => do
      let r ← buildTypeDef param.parameterType
      let paramTypeDef :=
        if r.2 || param.hasDefaultValue || param.isOptional then r.1.withOptional true
        else r.1
      let defaultJson :=
        if param.hasDefaultValue then
          (normalizeDefaultValue param.defaultValue).map genericSerialize
        else none
      let rest' ← registerCtorArgs (position + 1) rest
      .ok ({ name := toCamelCase (param.name.getD ("arg" ++ toString position))
             typeDef := paramTypeDef
             description := none
             defaultJson := defaultJson
             defaultPath := param.defaultPathAttr
             ignorePatterns := param.ignoreAttr } :: rest')

/-- A registered field (one `WithField` call). -/
structure FieldDef where
  name : String
  typeDef : TypeDef
  description : Option String
  deprecated : Option String
deriving Repr

/-- The field loop of object registration: a nullable field type is marked
optional. -/
def registerFields : List FieldInfo → Except String (List FieldDef)
  | [] => .ok []
  | field :: rest => do
      let r ← buildTypeDef field.propertyType
      let fieldTypeDef := if r.2 then r.1.withOptional true else r.1
      let rest' ← registerFields rest
      .ok ({ name := field.name
             typeDef := fieldTypeDef
             description := field.description
             deprecated := field.deprecated } :: rest')

/-- A registered object type (one `WithObject` chain). -/
structure ObjectDef where
  name : String
  description : Option String
  constructorFn : Option FunctionDef
  fields : List FieldDef
  functions : List FunctionDef
deriving Repr

/-- The function loop of object registration. -/
def registerFunctions : List FunctionInfo → Except String (List FunctionDef)
  | [] => .ok []
  | f :: rest => do
      let fd ← registerFunction f
      let rest' ← registerFunctions rest
      .ok (fd :: rest')

/-- The registration of one discovered module type: the optional
constructor (as an empty-named function whose return type is the object
itself), then fields, then functions. -/
def registerObject (moduleInfo : ModuleTypeInfo) : Except String ObjectDef := do
  let constructorFn ←
    match moduleInfo.constructor with
    | none => pure (Option.none (α := FunctionDef))
    | some ctor => do
        let args ← registerCtorArgs 0 ctor.params
        pure (some
          { name := ""
            returnType := TypeDef.objectRef moduleInfo.name moduleInfo.description false
            description := none
            cachePolicy := none
            deprecated := none
            args := args })
  let fields ← registerFields moduleInfo.fields
  let functions ← registerFunctions moduleInfo.functions
  .ok { name := moduleInfo.name
        description := moduleInfo.description
        constructorFn := constructorFn
        fields := fields
        functions := functions }

/-- A registered enum definition (`WithEnum` plus its `WithEnumMember`
chain). -/
structure EnumDef where
  name : String
  description : Option String
  members : List EnumValueInfo
deriving Repr

/-- The object loop of module registration. -/
def registerObjects : List ModuleTypeInfo → Except String (List ObjectDef)
  | [] => .ok []
  | m :: rest => do
      let od ← registerObject m
      let rest' ← registerObjects rest
      .ok (od :: rest')

/-- The assembled module definition submitted through the RPC client. -/
structure ModuleDef where
  enums : List EnumDef
  objects : List ObjectDef
deriving Repr

/-- The body of the registration phase: enums are registered first, then
every discovered object type. -/
def registerModule (asm : Assembly) (moduleInfos : List ModuleTypeInfo) :
    Except String ModuleDef := do
  let enums := (buildEnumTypeInfos asm).map (fun e =>
    { name := e.name, description := e.description, members := e.values : EnumDef })
  let objects ← registerObjects moduleInfos
  .ok { enums := enums, objects := objects }

/-- One observable step of a dispatcher run: the RPC round trips (reads of
call metadata, submissions of results) plus markers for the native
constructor and method invocations. -/
inductive RpcEffect where
  | readName : RpcEffect
  | readParentName : RpcEffect
  | readParent : RpcEffect
  | readInputArgs : RpcEffect
  | invokeConstructor (args : List DotnetValue) : RpcEffect
  | invokeMethod (args : List DotnetValue) : RpcEffect
  | submitModule (m : ModuleDef) : RpcEffect
  | returnValue (payload : JsonValue) : RpcEffect
  | returnError (message : String) : RpcEffect
  | writeErrorStream (message : String) : RpcEffect

/-- The argument dictionary built from `InputArgsAsync` (later entries
overwrite earlier ones, as `argumentMap[name] = value` does). -/
def buildArgumentMap (args : List (String × JsonValue)) : String → Option JsonValue :=
  args.foldl (fun m kv => fun k => if k = kv.1 then some kv.2 else m k) (fun _ => none)

/-- `LoadArgumentsAsync`'s parameter loop: a cancellation-token parameter
is always filled with the no-op token; a missing wire value falls back on
the declared default, then on null for an optional parameter, and is
otherwise a hard error naming the parameter; a present wire value is
decoded. -/
def loadArguments (env : RuntimeEnv) (argumentMap : String → Option JsonValue) :
    List ParameterMetadata → Except String (List DotnetValue)
  | [] => .ok []
  | parameter :: rest =>
    if parameter.isCancellationToken then do
      let rest' ← loadArguments env argumentMap rest
      .ok (vcancellationTokenNone :: rest')
    else
      match argumentMap parameter.name with
      | none =>
        if parameter.parameter.hasDefaultValue then do
          let rest' ← loadArguments env argumentMap rest
          .ok (parameter.parameter.defaultValue :: rest')
        else if parameter.isOptional then do
          let rest' ← loadArguments env argumentMap rest
          .ok (vnull :: rest')
        else .error ("Missing required argument '" ++ parameter.name ++ "'.")
      | some element => do
        let v ← convertArgument env element parameter.parameterType
        let rest' ← loadArguments env argumentMap rest
        .ok (v :: rest')

/-- The constructor-argument loop shared by both construction sites: a
present wire value is decoded, a missing one falls back on the declared
default, then on null for an optional parameter, and is otherwise a hard
error naming the (camel-cased) parameter. -/
def decodeCtorArgs (env : RuntimeEnv) (lookup : String → Option JsonValue) (i : Nat) :
    List ParamDecl → Except String (List DotnetValue)
  | [] => .ok []
  | param :: rest =>
    let paramName := toCamelCase (param.name.getD ("arg" ++ toString i))
    match lookup paramName with
    | some propElement => do
        let v ← convertArgument env propElement param.parameterType
        let rest' ← decodeCtorArgs env lookup (i + 1) rest
        .ok (v :: rest')
    | none =>
      if param.hasDefaultValue then do
        let rest' ← decodeCtorArgs env lookup (i + 1) rest
        .ok (param.defaultValue :: rest')
      else if param.isOptional then do
        let rest' ← decodeCtorArgs env lookup (i + 1) rest
        .ok (vnull :: rest')
      else .error ("Missing required constructor argument '" ++ paramName ++ "'.")

/-- The names under which constructor parameters shadow fields during
population: the camel-cased parameter names of the registered
constructor, if any. -/
def ctorParamNamesOf : Option CtorDecl → List String
  | none => []
  | some c => c.params.map (fun p => toCamelCase (p.name.getD ""))

/-- The field-population loop: a field whose exposed name is among the
constructor parameter names is skipped; otherwise, when the parent state
has a matching key, the decoded value is written to the property. -/
def populateFields (env : RuntimeEnv) (parentFields : List (String × JsonValue))
    (ctorParamNames : List String) :
    List FieldInfo → Instance → Except String Instance
  | [], inst => .ok inst
  | fieldInfo :: rest, inst =>
    if ctorParamNames.contains fieldInfo.name then
      populateFields env parentFields ctorParamNames rest inst
    else
      match lookupProperty parentFields fieldInfo.name with
      | some fieldElement => do
          let fieldValue ← convertArgument env fieldElement fieldInfo.propertyType
          populateFields env parentFields ctorParamNames rest
            (inst.setProp fieldInfo.propertyName fieldValue)
      | none => populateFields env parentFields ctorParamNames rest inst

/-- The environment of one engine-issued call, as the RPC client answers
it: the reflection surface, the current call's parent name, function
name, serialized parent state and input arguments. -/
structure CallEnv where
  runtime : RuntimeEnv
  parentName : String
  functionName : String
  parentJson : List (String × JsonValue)
  inputArgs : List (String × JsonValue)

/-- How the body of an invocation-phase call ends: a value to submit, an
error already reported inside the body, or an exception for the phase's
catch-all. -/
inductive InvocationOutcome where
  | success (payload : JsonValue) : InvocationOutcome
  | reportedError : InvocationOutcome
  | raised (message : String) : InvocationOutcome

/-- The generic serialization of a freshly constructed instance (all
public properties, camel-cased, nulls omitted). -/
def serializeInstance (inst : Instance) : JsonValue :=
  jobj (inst.props.filterMap (fun kv =>
    match kv.2 with
    | vnull => none
    | v => some (toCamelCase kv.1, genericSerialize v)))

/-- The instance-creation block of the invocation phase: a registered
parameterized constructor decodes its arguments from the parent state (a
further RPC read); otherwise `Activator.CreateInstance` is used; a null
instance is a hard error. -/
def createInstanceStep (env : CallEnv) (moduleInfo : ModuleTypeInfo) :
    List RpcEffect × Except String Instance :=
  match moduleInfo.constructor with
  | some ctor =>
    if ctor.params.length > 0 then
      match decodeCtorArgs env.runtime (lookupProperty env.parentJson) 0 ctor.params with
      | .error msg => ([RpcEffect.readParent], .error msg)
      | .ok ctorArgs =>
        match ctor.invoke ctorArgs with
        | .error msg =>
            ([RpcEffect.readParent, RpcEffect.invokeConstructor ctorArgs], .error msg)
        | .ok inst =>
            ([RpcEffect.readParent, RpcEffect.invokeConstructor ctorArgs], .ok inst)
    else
      match moduleInfo.activatorCreate with
      | .error msg => ([], .error msg)
      | .ok none =>
          ([], .error ("Unable to create instance of '" ++ moduleInfo.clrTypeName ++ "'."))
      | .ok (some inst) => ([], .ok inst)
  | none =>
      match moduleInfo.activatorCreate with
      | .error msg => ([], .error msg)
      | .ok none =>
          ([], .error ("Unable to create instance of '" ++ moduleInfo.clrTypeName ++ "'."))
      | .ok (some inst) => ([], .ok inst)

/-- The field-population block: entered only when fields were discovered,
re-reading the parent state. -/
def populateFieldsStep (env : CallEnv) (moduleInfo : ModuleTypeInfo) (inst : Instance) :
    List RpcEffect × Except String Instance :=
  if moduleInfo.fields.length > 0 then
    ([RpcEffect.readParent],
     populateFields env.runtime env.parentJson (ctorParamNamesOf moduleInfo.constructor)
       moduleInfo.fields inst)
  else ([], .ok inst)

/-- The argument-loading block: one RPC read of the input arguments, then
`loadArguments` over the built dictionary. -/
def loadArgumentsStep (env : CallEnv) (functionInfo : FunctionInfo) :
    List RpcEffect × Except String (List DotnetValue) :=
  ([RpcEffect.readInputArgs],
   loadArguments env.runtime (buildArgumentMap env.inputArgs) functionInfo.parameters)

/-- `HandleConstructorInvocationAsync`'s body (an empty function name): a
registered parameterized constructor decodes its arguments from the input
arguments; the constructed instance is generically serialized and
returned. -/
def constructorInvocationBody (env : CallEnv) (moduleInfo : ModuleTypeInfo) :
    List RpcEffect × InvocationOutcome :=
  match moduleInfo.constructor with
  | some ctor =>
    if ctor.params.length > 0 then
      match decodeCtorArgs env.runtime (buildArgumentMap env.inputArgs) 0 ctor.params with
      | .error msg => ([RpcEffect.readInputArgs], .raised msg)
      | .ok ctorArgs =>
        match ctor.invoke ctorArgs with
        | .error msg =>
            ([RpcEffect.readInputArgs, RpcEffect.invokeConstructor ctorArgs], .raised msg)
        | .ok inst =>
            ([RpcEffect.readInputArgs, RpcEffect.invokeConstructor ctorArgs],
             .success (serializeInstance inst))
    else
      match moduleInfo.activatorCreate with
      | .error msg => ([], .raised msg)
      | .ok none =>
          ([], .raised ("Unable to create instance of '" ++ moduleInfo.clrTypeName ++ "'."))
      | .ok (some inst) => ([], .success (serializeInstance inst))
  | none =>
      match moduleInfo.activatorCreate with
      | .error msg => ([], .raised msg)
      | .ok none =>
          ([], .raised ("Unable to create instance of '" ++ moduleInfo.clrTypeName ++ "'."))
      | .ok (some inst) => ([], .success (serializeInstance inst))

/-- The body of `HandleInvocationAsync` after the function name has been
read: module and function lookup (failures reported directly), instance
creation, field population, argument loading, the native invocation, the
asynchronous unwrap (the non-generic shapes yield null), and the
normalization and serialization of the result. -/
def invocationBody (env : CallEnv) (moduleInfos : List ModuleTypeInfo) :
    List RpcEffect × InvocationOutcome :=
  match moduleInfos.find? (fun info => info.name = env.parentName) with
  | none =>
      ([RpcEffect.returnError ("Module object '" ++ env.parentName ++ "' is not registered.")],
       .reportedError)
  | some moduleInfo =>
    if env.functionName.isEmpty then constructorInvocationBody env moduleInfo
    else
      match moduleInfo.functions.find? (fun f => f.name = env.functionName) with
      | none =>
          ([RpcEffect.returnError
              ("Function '" ++ env.functionName ++ "' not found on module object '" ++
                env.parentName ++ "'.")],
           .reportedError)
      | some functionInfo =>
        let s1 := createInstanceStep env moduleInfo
        match s1.2 with
        | .error msg => (s1.1, .raised msg)
        | .ok inst =>
          let s2 := populateFieldsStep env moduleInfo inst
          match s2.2 with
          | .error msg => (s1.1 ++ s2.1, .raised msg)
          | .ok inst2 =>
            let s3 := loadArgumentsStep env functionInfo
            match s3.2 with
            | .error msg => (s1.1 ++ s2.1 ++ s3.1, .raised msg)
            | .ok argumentValues =>
              let tr := s1.1 ++ s2.1 ++ s3.1 ++ [RpcEffect.invokeMethod argumentValues]
              match functionInfo.invoke inst2 argumentValues with
              | .error msg => (tr, .raised msg)
              | .ok invocationResult0 =>
                let invocationResult :=
                  if (functionInfo.returnsTask || functionInfo.returnsValueTask) &&
                      !isGenericReturn functionInfo.returnShape
                  then vnull else invocationResult0
                (tr, .success (serializeNorm (normalizeResult invocationResult)))

/-- `HandleInvocationAsync`: the function name is read first; a successful
body submits its value and yields exit code 0; a body that already
reported an error yields exit code 1; an exception is written to the
error stream, reported through `ReturnErrorAsync`, and yields exit code
1. -/
def handleInvocation (env : CallEnv) (moduleInfos : List ModuleTypeInfo) :
    List RpcEffect × Int :=
  let body := invocationBody env moduleInfos
  match body.2 with
  | .success payload =>
      (RpcEffect.readName :: body.1 ++ [RpcEffect.returnValue payload], 0)
  | .reportedError => (RpcEffect.readName :: body.1, 1)
  | .raised msg =>
      (RpcEffect.readName :: body.1 ++
        [RpcEffect.writeErrorStream msg, RpcEffect.returnError msg], 1)

/-- `HandleRegistrationAsync`: the assembled module definition is
submitted and its ID returned as the call's value; any exception is
written to the error stream and reported, with exit code 1. -/
def handleRegistration (asm : Assembly) (moduleInfos : List ModuleTypeInfo)
    (moduleId : String) : List RpcEffect × Int :=
  match registerModule asm moduleInfos with
  | .ok mdef =>
      ([RpcEffect.submitModule mdef, RpcEffect.returnValue (jstr moduleId)], 0)
  | .error msg =>
      ([RpcEffect.writeErrorStream msg, RpcEffect.returnError msg], 1)

/-- The process-level environment of `RunAsync`: the call environment
plus the failure modes of client construction, current-call resolution
and the parent-name read, and the module ID the engine assigns on
registration. -/
structure RunEnv where
  call : CallEnv
  clientError : Option String
  currentCallError : Option String
  parentNameError : Option String
  moduleId : String

/-- `RunAsync`: client construction and current-call resolution failures
exit 1 with only an error-stream line; an empty discovery reports an
error and exits 1 before the parent name is read; a parent-name read
failure is reported and exits 1; an empty parent name enters the
registration phase, a non-empty one the invocation phase. -/
def runAsync (env : RunEnv) (asm : Assembly) : List RpcEffect × Int :=
  match env.clientError with
  | some msg =>
      ([RpcEffect.writeErrorStream ("Failed to initialise Dagger client: " ++ msg)], 1)
  | none =>
    match env.currentCallError with
    | some msg =>
        ([RpcEffect.writeErrorStream ("Failed to resolve current function call: " ++ msg)], 1)
    | none =>
      let moduleInfos := buildModuleTypeInfos asm
      if moduleInfos.length = 0 then
        ([RpcEffect.returnError
            "No types decorated with [Object] were discovered in the entry assembly."], 1)
      else
        match env.parentNameError with
        | some msg =>
            ([RpcEffect.readParentName, RpcEffect.writeErrorStream msg,
              RpcEffect.returnError msg], 1)
        | none =>
          if env.call.parentName.isEmpty then
            let r := handleRegistration asm moduleInfos env.moduleId
            (RpcEffect.readParentName :: r.1, r.2)
          else
            let r := handleInvocation env.call moduleInfos
            (RpcEffect.readParentName :: r.1, r.2)

/-! ## Theorems -/

theorem buildParameterList_get? (count : Nat) (ps : List ParamDecl) (i : Nat) :
    (buildParameterList count ps).get? i =
      (ps.get? i).map (fun p => buildParameterMetadata (count + i) p) := by
  induction ps generalizing count i with
  | nil => simp [buildParameterList]
  | cons p rest ih =>
    cases i with
    | zero => simp [buildParameterList]
    | succ n =>
      have h : count + 1 + n = count + (n + 1) := by omega
      rw [show (p :: rest).get? (n + 1) = rest.get? n from rfl]
      rw [show (buildParameterList count (p :: rest)).get? (n + 1) =
            (buildParameterList (count + 1) rest).get? n from rfl]
      rw [ih (count + 1) n, h]

/-- Claim C4: for every discovered function parameter, the parameter is
recorded as optional if and only if it has a native default value, or is
declared optional, or its type is a nullable wrapper type. -/
theorem claim_C4_optionality (m : MethodDecl) (fa : FunctionAttr) (i : Nat)
    (p : ParamDecl) (hp : m.parameters.get? i = some p) :
    ∃ pm, (buildFunctionInfo m fa).parameters.get? i = some pm ∧
      (pm.isOptional = true ↔
        (p.hasDefaultValue = true ∨ p.isOptional = true ∨
          (nullableUnderlying p.parameterType).isSome = true)) := by
  refine ⟨buildParameterMetadata i p, ?_, ?_⟩
  · show (buildParameterList 0 m.parameters).get? i = _
    rw [buildParameterList_get?, hp]
    simp
  · simp [buildParameterMetadata, Bool.or_eq_true, or_assoc]

/-- A parameter declaration used for concrete evaluations: `int count = 10`. -/
def exParamDecl : ParamDecl :=
  { name := some "Count"
    parameterType := ClrType.int
    hasDefaultValue := true
    defaultValue := DotnetValue.vint 10
    isOptional := true
    defaultPathAttr := none
    ignoreAttr := none }

/-- A `[Function]` attribute with no overrides. -/
def exFunctionAttr : FunctionAttr :=
  { name := none, description := none, deprecated := none, cache := none }

/-- A method declaration used for concrete evaluations. -/
def exMethodDecl : MethodDecl :=
  { name := "Hello"
    isSpecialName := false
    functionAttr := some exFunctionAttr
    xmlDescription := none
    returnShape := ReturnShape.plain ClrType.string
    parameters := [exParamDecl]
    invoke := fun _ _ => .ok (DotnetValue.vstr "hi") }

theorem claim_C4_witness :
    exMethodDecl.parameters.get? 0 = some exParamDecl ∧
    ∃ pm, (buildFunctionInfo exMethodDecl exFunctionAttr).parameters.get? 0 = some pm ∧
      (pm.isOptional = true ↔
        (exParamDecl.hasDefaultValue = true ∨ exParamDecl.isOptional = true ∨
          (nullableUnderlying exParamDecl.parameterType).isSome = true)) :=
  ⟨rfl, claim_C4_optionality exMethodDecl exFunctionAttr 0 exParamDecl rfl⟩

theorem TypeDef.optional_withOptional (td : TypeDef) (b : Bool) :
    (td.withOptional b).optional = b := by
  cases td <;> rfl

/-- Claim C7: a registered function whose declared return shape is void
(including the non-generic asynchronous shapes) or whose return type is
nullable has its return `TypeDef` marked optional; mapping the void type
itself yields the void kind with nullability forced to `true`, nullable
wrapper or not. -/
theorem claim_C7_void_nullable_optional (fn : FunctionInfo) (fd : FunctionDef)
    (td : TypeDef) (nb : Bool)
    (hmap : buildTypeDef fn.returnType = .ok (td, nb))
    (hreg : registerFunction fn = .ok fd)
    (hvn : fn.returnsVoid = true ∨ nb = true) :
    fd.returnType.optional = true ∧
    buildTypeDef ClrType.voidType = .ok (TypeDef.kind TypeDefKind.VOID_KIND false, true) ∧
    buildTypeDef (ClrType.nullable ClrType.voidType) =
      .ok (TypeDef.kind TypeDefKind.VOID_KIND false, true) := by
  refine ⟨?_, rfl, rfl⟩
  unfold registerFunction at hreg
  rw [hmap] at hreg
  cases hargs : registerFunctionArgs fn.parameters with
  | error e =>
    rw [hargs] at hreg
    simp [Bind.bind, Except.bind] at hreg
  | ok args =>
    rw [hargs] at hreg
    simp only [Bind.bind, Except.bind, Except.ok.injEq] at hreg
    subst hreg
    rcases hvn with hv | hn
    · simp [hv, TypeDef.optional_withOptional]
    · simp [hn, TypeDef.optional_withOptional]

/-- A function info used for concrete evaluations: an `async Task`-shaped
(void) function. -/
def exVoidFunctionInfo : FunctionInfo :=
  { name := "doIt"
    description := none
    deprecated := none
    cachePolicy := none
    returnShape := ReturnShape.task
    invoke := fun _ _ => .ok DotnetValue.vnull
    returnType := ClrType.voidType
    returnsTask := true
    returnsValueTask := false
    returnsVoid := true
    parameters := [] }

theorem claim_C7_witness :
    buildTypeDef exVoidFunctionInfo.returnType =
      .ok (TypeDef.kind TypeDefKind.VOID_KIND false, true) ∧
    ∃ fd, registerFunction exVoidFunctionInfo = .ok fd ∧ fd.returnType.optional = true :=
  ⟨rfl,
   ⟨{ name := "doIt", returnType := TypeDef.kind TypeDefKind.VOID_KIND true,
      description := none, cachePolicy := none, deprecated := none, args := [] },
    rfl,
    (claim_C7_void_nullable_optional exVoidFunctionInfo _ _ _ rfl rfl (Or.inl rfl)).1⟩⟩

/-- An enum member `Active` with underlying constant 0 and no member
attribute, as reflection exposes it. -/
def exEnumFieldActive : EnumFieldDecl :=
  { name := "Active", rawConstantValue := some 0, valueAttr := none }

/-- An `[Enum]`-marked enum `Status` with the single member `Active`. -/
def exStatusEnumDecl : EnumDecl :=
  { name := "Status"
    enumAttr := some { name := none, description := none }
    fields := [exEnumFieldActive] }

/-- An entry assembly containing only the `Status` enum. -/
def exEnumAssembly : Assembly :=
  { types := [], enums := [exStatusEnumDecl] }

/-- Claim C2 counterexample: discovery of the marked enum `Status` with
member `Active = 0` (no override attached) does not register the member
with wire value equal to its declared constant name — the registered
value is `"0"`, the decimal rendering of the raw underlying constant. -/
theorem claim_C2_counterexample :
    ¬ (∀ e ∈ buildEnumTypeInfos exEnumAssembly, ∀ v ∈ e.values, v.value = v.name) := by
  decide

/-- Claim C2 (amended): for every enum type carrying the enum-exposure
marker, each discovered member whose raw underlying constant is `n` is
registered under its declared constant name but with wire value equal to
the decimal rendering of `n` (the member attribute carries no value
override and is not consulted for the value). -/
theorem claim_C2_enum_wire_value (asm : Assembly) (d : EnumDecl) (a : EnumAttr)
    (f : EnumFieldDecl) (n : Int) (hd : d ∈ asm.enums) (ha : d.enumAttr = some a)
    (hf : f ∈ d.fields) (hraw : f.rawConstantValue = some n) :
    ∃ e ∈ buildEnumTypeInfos asm, e.enumTypeName = d.name ∧
      ({ name := f.name, value := toString n,
         description := f.valueAttr.bind (·.description),
         deprecated := f.valueAttr.bind (·.deprecated) } : EnumValueInfo) ∈ e.values := by
  refine ⟨buildEnumTypeInfo d a, ?_, rfl, ?_⟩
  · rw [buildEnumTypeInfos, List.mem_filterMap]
    exact ⟨d, hd, by rw [ha]; rfl⟩
  · show _ ∈ d.fields.map buildEnumValueInfo
    rw [List.mem_map]
    exact ⟨f, hf, by simp [buildEnumValueInfo, hraw]⟩

theorem claim_C2_witness :
    exStatusEnumDecl ∈ exEnumAssembly.enums ∧
    exEnumFieldActive ∈ exStatusEnumDecl.fields ∧
    ∃ e ∈ buildEnumTypeInfos exEnumAssembly, e.enumTypeName = "Status" ∧
      ({ name := "Active", value := "0", description := none,
         deprecated := none } : EnumValueInfo) ∈ e.values :=
  ⟨List.Mem.head _, List.Mem.head _,
   claim_C2_enum_wire_value exEnumAssembly exStatusEnumDecl
     { name := none, description := none } exEnumFieldActive 0
     (List.Mem.head _) rfl (List.Mem.head _) rfl⟩

/-- The CLR type of a primitive native value, for the round-trip
statement. -/
def typeOfPrimitive : DotnetValue → Option ClrType
  | vstr _ => some ClrType.string
  | vbool _ => some ClrType.bool
  | vint _ => some ClrType.int
  | vlong _ => some ClrType.long
  | vshort _ => some ClrType.short
  | vbyte _ => some ClrType.byte
  | vdouble _ => some ClrType.double
  | vfloat _ => some ClrType.float
  | vdecimal _ => some ClrType.decimal
  | _ => none

/-- A primitive value that actually fits its declared width (every value a
CLR variable of that type can hold). -/
def wellFormedPrimitive : DotnetValue → Prop
  | vint n => -(2 ^ 31) ≤ n ∧ n < 2 ^ 31
  | vlong n => -(2 ^ 63) ≤ n ∧ n < 2 ^ 63
  | vshort n => -(2 ^ 15) ≤ n ∧ n < 2 ^ 15
  | vbyte n => 0 ≤ n ∧ n < 2 ^ 8
  | _ => True

/-- The codec's encoding of a native result: normalization followed by
serialization. -/
def encodeResult (v : DotnetValue) : JsonValue :=
  serializeNorm (normalizeResult v)

theorem toInt16_eq_self {n : Int} (h1 : -32768 ≤ n) (h2 : n < 32768) :
    toInt16 n = n := by
  unfold toInt16
  simp only [show (2 : Int) ^ 16 = 65536 by norm_num,
    show (2 : Int) ^ 15 = 32768 by norm_num]
  omega

theorem toUInt8cast_eq_self {n : Int} (h1 : 0 ≤ n) (h2 : n < 256) :
    toUInt8cast n = n := by
  unfold toUInt8cast
  simp only [show (2 : Int) ^ 8 = 256 by norm_num]
  omega

/-- Claim C8: for every value of a supported primitive kind (string,
boolean, every supported integer width, every supported floating/decimal
kind), decoding the encoding of the value at its own type returns the
value (zero, negative, maximum-width and empty-string values included). -/
theorem claim_C8_primitive_round_trip (env : RuntimeEnv) (v : DotnetValue) (t : ClrType)
    (ht : typeOfPrimitive v = some t) (hwf : wellFormedPrimitive v) :
    convertArgument env (encodeResult v) t = .ok v := by
  cases v <;> simp only [typeOfPrimitive, Option.some.injEq, reduceCtorEq] at ht
  case vstr s =>
    subst ht
    simp [encodeResult, normalizeResult, serializeNorm, serializePrim,
      convertArgument, Bind.bind, Except.bind, getStringJson, nullableUnderlying, isNullJson, isValueType]
  case vbool b =>
    subst ht
    simp [encodeResult, normalizeResult, serializeNorm, serializePrim,
      convertArgument, Bind.bind, Except.bind, getBooleanJson, nullableUnderlying, isNullJson, isValueType]
  case vint n =>
    subst ht
    obtain ⟨h1, h2⟩ := hwf
    norm_num at h1 h2
    simp [encodeResult, normalizeResult, serializeNorm, serializePrim,
      convertArgument, Bind.bind, Except.bind, getInt32, h1, h2, nullableUnderlying, isNullJson, isValueType]
  case vlong n =>
    subst ht
    obtain ⟨h1, h2⟩ := hwf
    norm_num at h1 h2
    simp [encodeResult, normalizeResult, serializeNorm, serializePrim,
      convertArgument, Bind.bind, Except.bind, getInt64, h1, h2, nullableUnderlying, isNullJson, isValueType]
  case vshort n =>
    subst ht
    obtain ⟨h1, h2⟩ := hwf
    norm_num at h1 h2
    have h3 : -2147483648 ≤ n := by omega
    have h4 : n < 2147483648 := by omega
    simp [encodeResult, normalizeResult, serializeNorm, serializePrim,
      convertArgument, Bind.bind, Except.bind, getInt32, h3, h4, toInt16_eq_self h1 h2, nullableUnderlying,
      isNullJson, isValueType]
  case vbyte n =>
    subst ht
    obtain ⟨h1, h2⟩ := hwf
    norm_num at h2
    have h3 : -2147483648 ≤ n := by omega
    have h4 : n < 2147483648 := by omega
    simp [encodeResult, normalizeResult, serializeNorm, serializePrim,
      convertArgument, Bind.bind, Except.bind, getInt32, h3, h4, toUInt8cast_eq_self h1 h2, nullableUnderlying,
      isNullJson, isValueType]
  case vdouble q =>
    subst ht
    simp [encodeResult, normalizeResult, serializeNorm, serializePrim,
      convertArgument, Bind.bind, Except.bind, getNumberJson, nullableUnderlying, isNullJson, isValueType]
  case vfloat q =>
    subst ht
    simp [encodeResult, normalizeResult, serializeNorm, serializePrim,
      convertArgument, Bind.bind, Except.bind, getNumberJson, nullableUnderlying, isNullJson, isValueType]
  case vdecimal q =>
    subst ht
    simp [encodeResult, normalizeResult, serializeNorm, serializePrim,
      convertArgument, Bind.bind, Except.bind, getNumberJson, nullableUnderlying, isNullJson, isValueType]

/-- A reflection surface with no loaders, for concrete evaluations. -/
def exRuntimeEnv : RuntimeEnv :=
  { loaders := fun _ => none, idTypeExists := fun _ => false }

theorem claim_C8_witness :
    typeOfPrimitive (vshort (-32768)) = some ClrType.short ∧
    wellFormedPrimitive (vshort (-32768)) ∧
    convertArgument exRuntimeEnv (encodeResult (vshort (-32768))) ClrType.short =
      .ok (vshort (-32768)) :=
  ⟨rfl, by constructor <;> norm_num,
   claim_C8_primitive_round_trip exRuntimeEnv (vshort (-32768)) ClrType.short rfl
     (by constructor <;> norm_num)⟩

/-- Claim C6: encoding a remote-object value emits the opaque ID resolved
through the object's own accessor as the wire value (no structural
serialization); decoding a bare ID string or a wire object carrying an
`id` field resolves an object handle by invoking the type's load-by-ID
accessor with exactly the supplied ID string; the absence of a matching
loader is a hard error. -/
theorem claim_C6_object_by_reference (env : RuntimeEnv) (ty id : String)
    (loadFn : String → DotnetValue)
    (hload : env.loaders ty = some loadFn)
    (hid : env.idTypeExists ty = true)
    (hws : id.data.all (·.isWhitespace) = false) :
    encodeResult (vobjectHandle ty id) = jstr id ∧
    convertArgument env (jstr id) (ClrType.daggerObject ty) = .ok (loadFn id) ∧
    convertArgument env (jobj [("id", jstr id)]) (ClrType.daggerObject ty) =
      .ok (loadFn id) ∧
    (∀ env2 : RuntimeEnv, env2.loaders ty = none →
      convertArgument env2 (jstr id) (ClrType.daggerObject ty) =
        .error ("Cannot load '" ++ ty ++ "' from id.")) := by
  refine ⟨by simp [encodeResult, normalizeResult, serializeNorm], ?_, ?_, ?_⟩
  · simp [convertArgument, extractObjectId, nullableUnderlying, isNullJson,
      Bind.bind, Except.bind, hload, hid, hws]
  · simp [convertArgument, extractObjectId, lookupProperty, nullableUnderlying,
      isNullJson, Bind.bind, Except.bind, hload, hid, hws]
  · intro env2 hnone
    simp [convertArgument, extractObjectId, nullableUnderlying, isNullJson,
      Bind.bind, Except.bind, hnone, hws]

/-- A reflection surface exposing a loader and an ID wrapper type for
`Container` only. -/
def exLoaderEnv : RuntimeEnv :=
  { loaders := fun ty =>
      if ty = "Container" then some (fun id => vobjectHandle "Container" id) else none
    idTypeExists := fun ty => ty = "Container" }

theorem claim_C6_witness :
    exLoaderEnv.loaders "Container" = some (fun id => vobjectHandle "Container" id) ∧
    exLoaderEnv.idTypeExists "Container" = true ∧
    ("abc123".data.all (·.isWhitespace)) = false ∧
    (encodeResult (vobjectHandle "Container" "abc123") = jstr "abc123" ∧
      convertArgument exLoaderEnv (jstr "abc123") (ClrType.daggerObject "Container") =
        .ok (vobjectHandle "Container" "abc123") ∧
      convertArgument exLoaderEnv (jobj [("id", jstr "abc123")])
          (ClrType.daggerObject "Container") =
        .ok (vobjectHandle "Container" "abc123") ∧
      (∀ env2 : RuntimeEnv, env2.loaders "Container" = none →
        convertArgument env2 (jstr "abc123") (ClrType.daggerObject "Container") =
          .error ("Cannot load '" ++ "Container" ++ "' from id."))) :=
  ⟨rfl, rfl, rfl,
   claim_C6_object_by_reference exLoaderEnv "Container" "abc123"
     (fun id => vobjectHandle "Container" id) rfl rfl rfl⟩

theorem registerFunctionArgs_names (ps : List ParameterMetadata) (args : List ArgDef)
    (h : registerFunctionArgs ps = .ok args) :
    args.map ArgDef.name =
      (ps.filter (fun p => !p.isCancellationToken)).map ParameterMetadata.name := by
  induction ps generalizing args with
  | nil =>
    simp only [registerFunctionArgs, Except.ok.injEq] at h
    subst h
    rfl
  | cons p rest ih =>
    cases hct : p.isCancellationToken with
    | true =>
      rw [registerFunctionArgs, if_pos (by simp [hct])] at h
      simp [List.filter_cons, hct, ih args h]
    | false =>
      rw [registerFunctionArgs, if_neg (by simp [hct])] at h
      cases hbt : buildTypeDef p.parameterType with
      | error e =>
        rw [hbt] at h
        simp [Bind.bind, Except.bind] at h
      | ok r =>
        rw [hbt] at h
        cases hrest : registerFunctionArgs rest with
        | error e =>
          rw [hrest] at h
          simp [Bind.bind, Except.bind] at h
        | ok rest' =>
          rw [hrest] at h
          simp only [Bind.bind, Except.bind, Except.ok.injEq] at h
          subst h
          simp [List.filter_cons, hct, ih rest' hrest]

theorem loadArguments_cancellation (env : RuntimeEnv)
    (argumentMap : String → Option JsonValue) (ps : List ParameterMetadata)
    (res : List DotnetValue) (h : loadArguments env argumentMap ps = .ok res) :
    ∀ i p, ps.get? i = some p → p.isCancellationToken = true →
      res.get? i = some vcancellationTokenNone := by
  induction ps generalizing res with
  | nil =>
    intro i p hp
    simp at hp
  | cons q rest ih =>
    intro i p hp hct
    cases hq : q.isCancellationToken with
    | true =>
      rw [loadArguments, if_pos (by simp [hq])] at h
      cases hrest : loadArguments env argumentMap rest with
      | error e =>
        rw [hrest] at h
        simp [Bind.bind, Except.bind] at h
      | ok rest' =>
        rw [hrest] at h
        simp only [Bind.bind, Except.bind, Except.ok.injEq] at h
        subst h
        cases i with
        | zero => rfl
        | succ n => exact ih rest' hrest n p hp hct
    | false =>
      rw [loadArguments, if_neg (by simp [hq])] at h
      cases i with
      | zero =>
        simp only [List.get?] at hp
        cases hp
        rw [hq] at hct
        cases hct
      | succ n =>
        simp only [List.get?] at hp
        cases hm : argumentMap q.name with
        | none =>
          rw [hm] at h
          simp only [Bind.bind, Except.bind] at h
          by_cases hd : q.parameter.hasDefaultValue = true
          · rw [if_pos hd] at h
            cases hrest : loadArguments env argumentMap rest with
            | error e =>
              rw [hrest] at h
              simp [Bind.bind, Except.bind] at h
            | ok rest' =>
              rw [hrest] at h
              simp only [Bind.bind, Except.bind, Except.ok.injEq] at h
              subst h
              exact ih rest' hrest n p hp hct
          · rw [if_neg hd] at h
            by_cases ho : q.isOptional = true
            · rw [if_pos ho] at h
              cases hrest : loadArguments env argumentMap rest with
              | error e =>
                rw [hrest] at h
                simp [Bind.bind, Except.bind] at h
              | ok rest' =>
                rw [hrest] at h
                simp only [Bind.bind, Except.bind, Except.ok.injEq] at h
                subst h
                exact ih rest' hrest n p hp hct
            · rw [if_neg ho] at h
              cases h
        | some element =>
          rw [hm] at h
          simp only [Bind.bind, Except.bind] at h
          cases hc : convertArgument env element q.parameterType with
          | error e =>
            rw [hc] at h
            simp [Bind.bind, Except.bind] at h
          | ok v =>
            rw [hc] at h
            cases hrest : loadArguments env argumentMap rest with
            | error e =>
              rw [hrest] at h
              simp [Bind.bind, Except.bind] at h
            | ok rest' =>
              rw [hrest] at h
              simp only [Bind.bind, Except.bind, Except.ok.injEq] at h
              subst h
              exact ih rest' hrest n p hp hct

/-- Claim C9: for every discovered function, the engine-visible argument
list is exactly the declared parameter list with every
cancellation-token-shaped parameter removed and the relative order
preserved; and at every invocation each cancellation-token position is
filled with the no-op token, never with a decoded wire value (whatever
the argument map holds under that name). -/
theorem claim_C9_parameter_order_and_token (fn : FunctionInfo) (fd : FunctionDef)
    (hreg : registerFunction fn = .ok fd) :
    fd.args.map ArgDef.name =
      (fn.parameters.filter (fun p => !p.isCancellationToken)).map ParameterMetadata.name
    ∧ ∀ (env : RuntimeEnv) (argumentMap : String → Option JsonValue)
        (res : List DotnetValue),
        loadArguments env argumentMap fn.parameters = .ok res →
        ∀ i p, fn.parameters.get? i = some p → p.isCancellationToken = true →
          res.get? i = some vcancellationTokenNone := by
  constructor
  · unfold registerFunction at hreg
    cases hbt : buildTypeDef fn.returnType with
    | error e =>
      rw [hbt] at hreg
      simp [Bind.bind, Except.bind] at hreg
    | ok r =>
      rw [hbt] at hreg
      cases hargs : registerFunctionArgs fn.parameters with
      | error e =>
        rw [hargs] at hreg
        simp [Bind.bind, Except.bind] at hreg
      | ok args =>
        rw [hargs] at hreg
        simp only [Bind.bind, Except.bind, Except.ok.injEq] at hreg
        subst hreg
        exact registerFunctionArgs_names fn.parameters args hargs
  · intro env argumentMap res h i p hp hct
    exact loadArguments_cancellation env argumentMap fn.parameters res h i p hp hct

/-- A cancellation-token parameter declaration. -/
def exCtParamDecl : ParamDecl :=
  { name := some "Token"
    parameterType := ClrType.cancellationToken
    hasDefaultValue := false
    defaultValue := DotnetValue.vnull
    isOptional := false
    defaultPathAttr := none
    ignoreAttr := none }

/-- A function info with a cancellation-token parameter followed by a
defaulted int parameter. -/
def exCtFunctionInfo : FunctionInfo :=
  { name := "go"
    description := none
    deprecated := none
    cachePolicy := none
    returnShape := ReturnShape.plain ClrType.string
    invoke := fun _ _ => .ok (DotnetValue.vstr "done")
    returnType := ClrType.string
    returnsTask := false
    returnsValueTask := false
    returnsVoid := false
    parameters := [buildParameterMetadata 0 exCtParamDecl, buildParameterMetadata 1 exParamDecl] }

theorem claim_C9_witness :
    ∃ fd, registerFunction exCtFunctionInfo = .ok fd ∧
      (fd.args.map ArgDef.name =
        (exCtFunctionInfo.parameters.filter (fun p => !p.isCancellationToken)).map
          ParameterMetadata.name
      ∧ ∀ (env : RuntimeEnv) (argumentMap : String → Option JsonValue)
          (res : List DotnetValue),
          loadArguments env argumentMap exCtFunctionInfo.parameters = .ok res →
          ∀ i p, exCtFunctionInfo.parameters.get? i = some p →
            p.isCancellationToken = true →
            res.get? i = some vcancellationTokenNone) :=
  ⟨_, rfl, claim_C9_parameter_order_and_token exCtFunctionInfo _ rfl⟩

theorem loadArguments_missing_required (env : RuntimeEnv)
    (argumentMap : String → Option JsonValue) (pre post : List ParameterMetadata)
    (p : ParameterMetadata) (vs : List DotnetValue)
    (hpre : loadArguments env argumentMap pre = .ok vs)
    (hct : p.isCancellationToken = false)
    (habsent : argumentMap p.name = none)
    (hdef : p.parameter.hasDefaultValue = false)
    (hopt : p.isOptional = false) :
    loadArguments env argumentMap (pre ++ p :: post) =
      .error ("Missing required argument '" ++ p.name ++ "'.") := by
  induction pre generalizing vs with
  | nil =>
    rw [List.nil_append, loadArguments, if_neg (by simp [hct]), habsent]
    simp only [Bind.bind, Except.bind]
    rw [if_neg (by simp [hdef]), if_neg (by simp [hopt])]
  | cons q rest ih =>
    rw [List.cons_append, loadArguments]
    rw [loadArguments] at hpre
    cases hq : q.isCancellationToken with
    | true =>
      rw [if_pos (by simp [hq])] at hpre ⊢
      simp only [Bind.bind, Except.bind] at hpre ⊢
      cases hrest : loadArguments env argumentMap rest with
      | error e =>
        rw [hrest] at hpre
        simp at hpre
      | ok rest' =>
        rw [ih rest' hrest]
    | false =>
      rw [if_neg (by simp [hq])] at hpre ⊢
      cases hm : argumentMap q.name with
      | none =>
        try rw [hm] at hpre
        try rw [hm]
        simp only [Bind.bind, Except.bind] at hpre ⊢
        by_cases hd : q.parameter.hasDefaultValue = true
        · rw [if_pos hd] at hpre ⊢
          cases hrest : loadArguments env argumentMap rest with
          | error e =>
            rw [hrest] at hpre
            simp at hpre
          | ok rest' =>
            rw [ih rest' hrest]
        · rw [if_neg hd] at hpre ⊢
          by_cases ho : q.isOptional = true
          · rw [if_pos ho] at hpre ⊢
            cases hrest : loadArguments env argumentMap rest with
            | error e =>
              rw [hrest] at hpre
              simp at hpre
            | ok rest' =>
              rw [ih rest' hrest]
          · rw [if_neg ho] at hpre
            cases hpre
      | some element =>
        try rw [hm] at hpre
        try rw [hm]
        simp only [Bind.bind, Except.bind] at hpre ⊢
        cases hc : convertArgument env element q.parameterType with
        | error e =>
          try rw [hc] at hpre
          simp at hpre
        | ok v =>
          try rw [hc] at hpre
          try rw [hc]
          simp only at hpre ⊢
          cases hrest : loadArguments env argumentMap rest with
          | error e =>
            rw [hrest] at hpre
            simp at hpre
          | ok rest' =>
            rw [ih rest' hrest]

theorem createInstanceStep_no_invokeMethod (env : CallEnv) (mi : ModuleTypeInfo)
    (args : List DotnetValue) :
    RpcEffect.invokeMethod args ∉ (createInstanceStep env mi).1 := by
  unfold createInstanceStep
  repeat' split
  all_goals simp

theorem populateFieldsStep_fst (env : CallEnv) (mi : ModuleTypeInfo) (inst : Instance) :
    (populateFieldsStep env mi inst).1 = [] ∨
    (populateFieldsStep env mi inst).1 = [RpcEffect.readParent] := by
  unfold populateFieldsStep
  by_cases h : mi.fields.length > 0
  · rw [if_pos h]
    right
    rfl
  · rw [if_neg h]
    left
    rfl

/-- Claim C3: when a non-optional, no-default parameter (the first such,
all parameters before it loading successfully) receives no wire value,
argument loading raises a decode error whose message names that
parameter, the call reports that error with exit code 1, and the native
method is never invoked. -/
theorem claim_C3_missing_required_argument
    (env : CallEnv) (moduleInfos : List ModuleTypeInfo)
    (moduleInfo : ModuleTypeInfo) (functionInfo : FunctionInfo)
    (pre post : List ParameterMetadata) (p : ParameterMetadata)
    (inst inst2 : Instance) (vs : List DotnetValue)
    (hfind : moduleInfos.find? (fun info => info.name = env.parentName) = some moduleInfo)
    (hne : env.functionName.isEmpty = false)
    (hfn : moduleInfo.functions.find? (fun f => f.name = env.functionName) =
      some functionInfo)
    (hparams : functionInfo.parameters = pre ++ p :: post)
    (hinst : (createInstanceStep env moduleInfo).2 = .ok inst)
    (hpop : (populateFieldsStep env moduleInfo inst).2 = .ok inst2)
    (hpre : loadArguments env.runtime (buildArgumentMap env.inputArgs) pre = .ok vs)
    (hct : p.isCancellationToken = false)
    (habsent : buildArgumentMap env.inputArgs p.name = none)
    (hdef : p.parameter.hasDefaultValue = false)
    (hopt : p.isOptional = false) :
    loadArguments env.runtime (buildArgumentMap env.inputArgs) functionInfo.parameters =
      .error ("Missing required argument '" ++ p.name ++ "'.")
    ∧ (handleInvocation env moduleInfos).2 = 1
    ∧ RpcEffect.returnError ("Missing required argument '" ++ p.name ++ "'.")
        ∈ (handleInvocation env moduleInfos).1
    ∧ ∀ args, RpcEffect.invokeMethod args ∉ (handleInvocation env moduleInfos).1 := by
  have hload : loadArguments env.runtime (buildArgumentMap env.inputArgs)
      functionInfo.parameters =
      .error ("Missing required argument '" ++ p.name ++ "'.") := by
    rw [hparams]
    exact loadArguments_missing_required env.runtime (buildArgumentMap env.inputArgs)
      pre post p vs hpre hct habsent hdef hopt
  have hbody : invocationBody env moduleInfos =
      ((createInstanceStep env moduleInfo).1 ++ (populateFieldsStep env moduleInfo inst).1 ++
        [RpcEffect.readInputArgs],
       .raised ("Missing required argument '" ++ p.name ++ "'.")) := by
    simp only [invocationBody, loadArgumentsStep, hfind, hne, hfn, hinst, hpop, hload,
      Bool.false_eq_true, if_false]
  refine ⟨hload, ?_, ?_, ?_⟩
  · simp only [handleInvocation, hbody]
  · simp [handleInvocation, hbody]
  · intro args hmem
    have h1 := createInstanceStep_no_invokeMethod env moduleInfo args
    rcases populateFieldsStep_fst env moduleInfo inst with h2 | h2 <;>
      simp [handleInvocation, hbody, h2, List.mem_append, List.mem_cons] at hmem <;>
      exact h1 hmem

/-- An empty instance of the module object `Test`. -/
def exInstance : Instance := { typeName := "Test", props := [] }

/-- A required string parameter `name` with no default. -/
def exReqParamDecl : ParamDecl :=
  { name := some "Name"
    parameterType := ClrType.string
    hasDefaultValue := false
    defaultValue := DotnetValue.vnull
    isOptional := false
    defaultPathAttr := none
    ignoreAttr := none }

/-- A function `greet(name: string) -> string`. -/
def exGreetFunctionInfo : FunctionInfo :=
  { name := "greet"
    description := none
    deprecated := none
    cachePolicy := none
    returnShape := ReturnShape.plain ClrType.string
    invoke := fun _ _ => .ok (DotnetValue.vstr "hi")
    returnType := ClrType.string
    returnsTask := false
    returnsValueTask := false
    returnsVoid := false
    parameters := [buildParameterMetadata 0 exReqParamDecl] }

/-- A module object `Test` exposing only `greet`. -/
def exGreetModuleTypeInfo : ModuleTypeInfo :=
  { name := "Test"
    description := none
    deprecated := none
    clrTypeName := "Test"
    activatorCreate := .ok (some exInstance)
    constructor := none
    functions := [exGreetFunctionInfo]
    fields := [] }

/-- An invocation of `Test.greet` supplying no arguments. -/
def exGreetCallEnv : CallEnv :=
  { runtime := exRuntimeEnv
    parentName := "Test"
    functionName := "greet"
    parentJson := []
    inputArgs := [] }

theorem claim_C3_witness :
    buildArgumentMap exGreetCallEnv.inputArgs
        (buildParameterMetadata 0 exReqParamDecl).name = none ∧
    (loadArguments exGreetCallEnv.runtime (buildArgumentMap exGreetCallEnv.inputArgs)
        exGreetFunctionInfo.parameters =
       .error ("Missing required argument '" ++
         (buildParameterMetadata 0 exReqParamDecl).name ++ "'.")
     ∧ (handleInvocation exGreetCallEnv [exGreetModuleTypeInfo]).2 = 1
     ∧ RpcEffect.returnError ("Missing required argument '" ++
         (buildParameterMetadata 0 exReqParamDecl).name ++ "'.")
         ∈ (handleInvocation exGreetCallEnv [exGreetModuleTypeInfo]).1
     ∧ ∀ args, RpcEffect.invokeMethod args ∉
         (handleInvocation exGreetCallEnv [exGreetModuleTypeInfo]).1) :=
  ⟨rfl,
   claim_C3_missing_required_argument exGreetCallEnv [exGreetModuleTypeInfo]
     exGreetModuleTypeInfo exGreetFunctionInfo [] []
     (buildParameterMetadata 0 exReqParamDecl) exInstance exInstance []
     rfl rfl rfl rfl rfl rfl rfl rfl rfl rfl rfl⟩

theorem Instance.getProp_setProp_self (inst : Instance) (k : String) (v : DotnetValue) :
    (inst.setProp k v).getProp k = some v := by
  show ((assocSet inst.props k v).find? (fun kv => kv.1 = k)).map (·.2) = some v
  induction inst.props with
  | nil => simp [assocSet]
  | cons kv rest ih =>
    obtain ⟨k', v'⟩ := kv
    by_cases hk : k' = k
    · subst hk
      simp [assocSet]
    · rw [show assocSet ((k', v') :: rest) k v = (k', v') :: assocSet rest k v from by
        simp [assocSet, hk]]
      rw [List.find?_cons_of_neg _ (by simp [hk])]
      exact ih

theorem Instance.getProp_setProp_ne (inst : Instance) (k k' : String) (v : DotnetValue)
    (h : k' ≠ k) : (inst.setProp k v).getProp k' = inst.getProp k' := by
  show ((assocSet inst.props k v).find? (fun kv => kv.1 = k')).map (·.2) =
    (inst.props.find? (fun kv => kv.1 = k')).map (·.2)
  induction inst.props with
  | nil => simp [assocSet, Ne.symm h]
  | cons kv rest ih =>
    obtain ⟨k'', v''⟩ := kv
    by_cases hk : k'' = k
    · subst hk
      simp [assocSet, Ne.symm h]
    · by_cases hk2 : k'' = k'
      · subst hk2
        simp [assocSet, hk]
      · rw [show assocSet ((k'', v'') :: rest) k v = (k'', v'') :: assocSet rest k v from by
          simp [assocSet, hk]]
        rw [List.find?_cons_of_neg _ (by simp [hk2]),
          List.find?_cons_of_neg _ (by simp [hk2])]
        exact ih

theorem populateFields_frame (env : RuntimeEnv) (parentFields : List (String × JsonValue))
    (ctorParamNames : List String) (fields : List FieldInfo) (inst inst' : Instance)
    (h : populateFields env parentFields ctorParamNames fields inst = .ok inst') :
    ∀ k, k ∉ fields.map FieldInfo.propertyName → inst'.getProp k = inst.getProp k := by
  induction fields generalizing inst with
  | nil =>
    simp only [populateFields, Except.ok.injEq] at h
    subst h
    intro k _
    rfl
  | cons g rest ih =>
    intro k hk
    simp only [List.map_cons, List.mem_cons, not_or] at hk
    obtain ⟨hk1, hk2⟩ := hk
    rw [populateFields] at h
    by_cases hgc : ctorParamNames.contains g.name = true
    · rw [if_pos hgc] at h
      exact ih inst h k hk2
    · rw [if_neg hgc] at h
      cases hlk : lookupProperty parentFields g.name with
      | some el0 =>
        rw [hlk] at h
        simp only [Bind.bind, Except.bind] at h
        cases hcv : convertArgument env el0 g.propertyType with
        | error e =>
          rw [hcv] at h
          cases h
        | ok v0 =>
          rw [hcv] at h
          rw [ih (inst.setProp g.propertyName v0) h k hk2]
          exact Instance.getProp_setProp_ne inst g.propertyName k v0 hk1
      | none =>
        rw [hlk] at h
        exact ih inst h k hk2

/-- Claim C5: during invocation-phase instance construction, a field
whose exposed name matches a (case-normalized) constructor parameter name
is skipped by field population, so the constructor-supplied property
value is retained; every other field with a matching key in the parent
state whose value decodes successfully is populated with the decoded
value (fields marking distinct CLR properties). -/
theorem claim_C5_field_precedence (env : RuntimeEnv)
    (parentFields : List (String × JsonValue)) (ctorParamNames : List String)
    (fields : List FieldInfo) (inst inst' : Instance)
    (h : populateFields env parentFields ctorParamNames fields inst = .ok inst')
    (hnodup : (fields.map FieldInfo.propertyName).Nodup) :
    ∀ f ∈ fields,
      (ctorParamNames.contains f.name = true →
        inst'.getProp f.propertyName = inst.getProp f.propertyName)
      ∧ (ctorParamNames.contains f.name = false →
          ∀ el v, lookupProperty parentFields f.name = some el →
            convertArgument env el f.propertyType = .ok v →
            inst'.getProp f.propertyName = some v) := by
  induction fields generalizing inst with
  | nil =>
    intro f hf
    cases hf
  | cons g rest ih =>
    have hgnot : g.propertyName ∉ rest.map FieldInfo.propertyName := by
      simp only [List.map_cons, List.nodup_cons] at hnodup
      exact hnodup.1
    have hnodup' : (rest.map FieldInfo.propertyName).Nodup := by
      simp only [List.map_cons, List.nodup_cons] at hnodup
      exact hnodup.2
    intro f hf
    rw [populateFields] at h
    by_cases hgc : ctorParamNames.contains g.name = true
    · rw [if_pos hgc] at h
      rcases List.mem_cons.mp hf with rfl | hf
      · refine ⟨fun _ => ?_, fun hc => ?_⟩
        · exact populateFields_frame env parentFields ctorParamNames rest inst inst' h
            f.propertyName hgnot
        · rw [hgc] at hc
          cases hc
      · exact ih inst h hnodup' f hf
    · rw [if_neg hgc] at h
      cases hlk : lookupProperty parentFields g.name with
      | some el0 =>
        rw [hlk] at h
        simp only [Bind.bind, Except.bind] at h
        cases hcv : convertArgument env el0 g.propertyType with
        | error e =>
          rw [hcv] at h
          cases h
        | ok v0 =>
          rw [hcv] at h
          rcases List.mem_cons.mp hf with rfl | hf
          · refine ⟨fun hc => absurd hc hgc, fun _ el v hel hcv2 => ?_⟩
            rw [hlk] at hel
            injection hel with hel
            subst hel
            rw [hcv] at hcv2
            injection hcv2 with hcv2
            subst hcv2
            rw [populateFields_frame env parentFields ctorParamNames rest
              (inst.setProp f.propertyName v0) inst' h f.propertyName hgnot]
            exact Instance.getProp_setProp_self inst f.propertyName v0
          · have hne : f.propertyName ≠ g.propertyName := by
              intro hEq
              exact hgnot (hEq ▸ List.mem_map_of_mem FieldInfo.propertyName hf)
            have hrec := ih (inst.setProp g.propertyName v0) h hnodup' f hf
            refine ⟨fun hc => ?_, hrec.2⟩
            rw [hrec.1 hc]
            exact Instance.getProp_setProp_ne inst g.propertyName f.propertyName v0 hne
      | none =>
        rw [hlk] at h
        rcases List.mem_cons.mp hf with rfl | hf
        · refine ⟨fun _ => ?_, fun _ el v hel _ => ?_⟩
          · exact populateFields_frame env parentFields ctorParamNames rest inst inst' h
              f.propertyName hgnot
          · rw [hlk] at hel
            cases hel
        · exact ih inst h hnodup' f hf

/-- A field `greeting` exposed on `Test`, matching a constructor
parameter of the same name, together with a second field `other`. -/
def exGreetingFieldInfo : FieldInfo :=
  { name := "greeting"
    description := none
    deprecated := none
    propertyName := "Greeting"
    propertyType := ClrType.string }

/-- A second field with no matching constructor parameter. -/
def exOtherFieldInfo : FieldInfo :=
  { name := "other"
    description := none
    deprecated := none
    propertyName := "Other"
    propertyType := ClrType.string }

/-- The instance as the constructor left it: `Greeting` already set. -/
def exCtorInstance : Instance :=
  { typeName := "Test", props := [("Greeting", DotnetValue.vstr "from-ctor")] }

/-- The parent's serialized state, carrying stale values for both keys. -/
def exParentState : List (String × JsonValue) :=
  [("greeting", jstr "from-parent"), ("other", jstr "parent-other")]

theorem claim_C5_witness :
    populateFields exRuntimeEnv exParentState ["greeting"]
        [exGreetingFieldInfo, exOtherFieldInfo] exCtorInstance =
      .ok (exCtorInstance.setProp "Other" (DotnetValue.vstr "parent-other")) ∧
    (exCtorInstance.setProp "Other" (DotnetValue.vstr "parent-other")).getProp "Greeting" =
      exCtorInstance.getProp "Greeting" ∧
    (exCtorInstance.setProp "Other" (DotnetValue.vstr "parent-other")).getProp "Other" =
      some (DotnetValue.vstr "parent-other") := by
  have hconv : convertArgument exRuntimeEnv (jstr "parent-other") ClrType.string =
      .ok (DotnetValue.vstr "parent-other") := by
    simp [convertArgument, getStringJson, nullableUnderlying, isNullJson,
      Bind.bind, Except.bind]
  have hpop : populateFields exRuntimeEnv exParentState ["greeting"]
      [exGreetingFieldInfo, exOtherFieldInfo] exCtorInstance =
      .ok (exCtorInstance.setProp "Other" (DotnetValue.vstr "parent-other")) := by
    simp [populateFields, exGreetingFieldInfo, exOtherFieldInfo, exParentState,
      lookupProperty, hconv, Bind.bind, Except.bind]
  have hnd : (([exGreetingFieldInfo, exOtherFieldInfo].map
      FieldInfo.propertyName)).Nodup := by
    simp [exGreetingFieldInfo, exOtherFieldInfo]
  refine ⟨hpop, ?_, ?_⟩
  · exact (claim_C5_field_precedence exRuntimeEnv exParentState ["greeting"]
      [exGreetingFieldInfo, exOtherFieldInfo] exCtorInstance
      (exCtorInstance.setProp "Other" (DotnetValue.vstr "parent-other")) hpop hnd
      exGreetingFieldInfo (List.Mem.head _)).1 rfl
  · exact (claim_C5_field_precedence exRuntimeEnv exParentState ["greeting"]
      [exGreetingFieldInfo, exOtherFieldInfo] exCtorInstance
      (exCtorInstance.setProp "Other" (DotnetValue.vstr "parent-other")) hpop hnd
      exOtherFieldInfo (List.Mem.tail _ (List.Mem.head _))).2 rfl
      (jstr "parent-other") (DotnetValue.vstr "parent-other") rfl hconv

theorem createInstanceStep_no_returnValue (env : CallEnv) (mi : ModuleTypeInfo)
    (payload : JsonValue) :
    RpcEffect.returnValue payload ∉ (createInstanceStep env mi).1 := by
  unfold createInstanceStep
  repeat' split
  all_goals simp

/-- A function that always raises with message `boom`. -/
def exFailFunctionInfo : FunctionInfo :=
  { name := "fail"
    description := none
    deprecated := none
    cachePolicy := none
    returnShape := ReturnShape.plain ClrType.string
    invoke := fun _ _ => .error "boom"
    returnType := ClrType.string
    returnsTask := false
    returnsValueTask := false
    returnsVoid := false
    parameters := [] }

/-- A module object `Test` exposing only the failing function. -/
def exFailModuleTypeInfo : ModuleTypeInfo :=
  { name := "Test"
    description := none
    deprecated := none
    clrTypeName := "Test"
    activatorCreate := .ok (some exInstance)
    constructor := none
    functions := [exFailFunctionInfo]
    fields := [] }

/-- An invocation of `Test.fail` with no arguments. -/
def exFailCallEnv : CallEnv :=
  { runtime := exRuntimeEnv
    parentName := "Test"
    functionName := "fail"
    parentJson := []
    inputArgs := [] }

/-- Claim C1 counterexample: an invocation-phase call in which the user
function raises `boom`.  The error is reported through `returnError`, yet
the process exit code is 1, not 0 — so exit code 1 is not confined to
infrastructure failures, contrary to the claim. -/
theorem claim_C1_counterexample :
    RpcEffect.returnError "boom" ∈ (handleInvocation exFailCallEnv [exFailModuleTypeInfo]).1
    ∧ (handleInvocation exFailCallEnv [exFailModuleTypeInfo]).2 ≠ 0 := by
  constructor
  · simp +decide [handleInvocation, invocationBody, createInstanceStep, populateFieldsStep,
      loadArgumentsStep, loadArguments, exFailCallEnv, exFailModuleTypeInfo,
      exFailFunctionInfo, exInstance, buildArgumentMap]
  · simp +decide [handleInvocation, invocationBody, createInstanceStep, populateFieldsStep,
      loadArgumentsStep, loadArguments, exFailCallEnv, exFailModuleTypeInfo,
      exFailFunctionInfo, exInstance, buildArgumentMap]

/-- Claim C1 (amended): for every invocation-phase call in which the user
function raises an error, the error is reported through the RPC client's
`returnError` operation (after being written to the error stream) and the
process exits with code 1 — not 0 — and no success value is returned; so
exit code 1 is shared by reported errors and infrastructure failures. -/
theorem claim_C1_user_error_reported (env : CallEnv) (moduleInfos : List ModuleTypeInfo)
    (moduleInfo : ModuleTypeInfo) (functionInfo : FunctionInfo)
    (inst inst2 : Instance) (args : List DotnetValue) (msg : String)
    (hfind : moduleInfos.find? (fun info => info.name = env.parentName) = some moduleInfo)
    (hne : env.functionName.isEmpty = false)
    (hfn : moduleInfo.functions.find? (fun f => f.name = env.functionName) =
      some functionInfo)
    (hinst : (createInstanceStep env moduleInfo).2 = .ok inst)
    (hpop : (populateFieldsStep env moduleInfo inst).2 = .ok inst2)
    (hargs : loadArguments env.runtime (buildArgumentMap env.inputArgs)
      functionInfo.parameters = .ok args)
    (hrun : functionInfo.invoke inst2 args = .error msg) :
    (handleInvocation env moduleInfos).2 = 1
    ∧ RpcEffect.returnError msg ∈ (handleInvocation env moduleInfos).1
    ∧ RpcEffect.writeErrorStream msg ∈ (handleInvocation env moduleInfos).1
    ∧ ∀ payload, RpcEffect.returnValue payload ∉ (handleInvocation env moduleInfos).1 := by
  have hbody : invocationBody env moduleInfos =
      ((createInstanceStep env moduleInfo).1 ++ (populateFieldsStep env moduleInfo inst).1 ++
        [RpcEffect.readInputArgs] ++ [RpcEffect.invokeMethod args], .raised msg) := by
    simp only [invocationBody, loadArgumentsStep, hfind, hne, hfn, hinst, hpop, hargs,
      hrun, Bool.false_eq_true, if_false]
  refine ⟨?_, ?_, ?_, ?_⟩
  · simp only [handleInvocation, hbody]
  · simp [handleInvocation, hbody]
  · simp [handleInvocation, hbody]
  · intro payload hmem
    have h1 := createInstanceStep_no_returnValue env moduleInfo payload
    rcases populateFieldsStep_fst env moduleInfo inst with h2 | h2 <;>
      simp [handleInvocation, hbody, h2, List.mem_append, List.mem_cons] at hmem <;>
      exact h1 hmem

theorem claim_C1_witness :
    ([exFailModuleTypeInfo].find?
        (fun info => info.name = exFailCallEnv.parentName) = some exFailModuleTypeInfo) ∧
    exFailFunctionInfo.invoke exInstance [] = .error "boom" ∧
    ((handleInvocation exFailCallEnv [exFailModuleTypeInfo]).2 = 1
     ∧ RpcEffect.returnError "boom" ∈ (handleInvocation exFailCallEnv [exFailModuleTypeInfo]).1
     ∧ RpcEffect.writeErrorStream "boom"
         ∈ (handleInvocation exFailCallEnv [exFailModuleTypeInfo]).1
     ∧ ∀ payload, RpcEffect.returnValue payload
         ∉ (handleInvocation exFailCallEnv [exFailModuleTypeInfo]).1) :=
  ⟨rfl, rfl,
   claim_C1_user_error_reported exFailCallEnv [exFailModuleTypeInfo]
     exFailModuleTypeInfo exFailFunctionInfo exInstance exInstance [] "boom"
     rfl rfl rfl rfl rfl rfl rfl⟩

/-- An entry assembly with no types at all. -/
def exEmptyAssembly : Assembly := { types := [], enums := [] }

/-- A process environment in which the client and the current call resolve
fine. -/
def exRunEnv : RunEnv :=
  { call := exGreetCallEnv
    clientError := none
    currentCallError := none
    parentNameError := none
    moduleId := "mod-1" }

/-- Claim C10: when metadata discovery finds zero module-object types, the
runtime reports a descriptive error through `returnError` and returns exit
code 1, with no other RPC effect — in particular the parent name is never
read and neither phase is entered. -/
theorem claim_C10_empty_discovery (env : RunEnv) (asm : Assembly)
    (hclient : env.clientError = none) (hcall : env.currentCallError = none)
    (hempty : buildModuleTypeInfos asm = []) :
    runAsync env asm =
      ([RpcEffect.returnError
          "No types decorated with [Object] were discovered in the entry assembly."], 1)
    ∧ RpcEffect.readParentName ∉ (runAsync env asm).1 := by
  have h : runAsync env asm =
      ([RpcEffect.returnError
          "No types decorated with [Object] were discovered in the entry assembly."], 1) := by
    simp [runAsync, hclient, hcall, hempty]
  refine ⟨h, ?_⟩
  rw [h]
  simp

theorem claim_C10_witness :
    exRunEnv.clientError = none ∧ exRunEnv.currentCallError = none ∧
    buildModuleTypeInfos exEmptyAssembly = [] ∧
    (runAsync exRunEnv exEmptyAssembly =
      ([RpcEffect.returnError
          "No types decorated with [Object] were discovered in the entry assembly."], 1)
     ∧ RpcEffect.readParentName ∉ (runAsync exRunEnv exEmptyAssembly).1) :=
  ⟨rfl, rfl, rfl, claim_C10_empty_discovery exRunEnv exEmptyAssembly rfl rfl rfl⟩

end DaggerRuntime
